import Mathlib

/-!
Verification of the fetch/normalize/store service in `src/server.js`.

The JavaScript source is shallowly embedded: raw external records become the
`RawItem` structure (absent JSON fields are `none`), JSON payloads become
`JsData`, the SQLite tables become lists of row structures inside `DBState`,
and each HTTP handler becomes a pure function from its inputs (request data,
the already-received remote response, the current database state) to a
response and a new state.  The SQL `BEGIN/ROLLBACK/COMMIT` transaction of the
domain upsert is embedded as an `Except`: on error the caller keeps the old
state (rollback), on success it adopts the new one (commit).
-/

/-- One raw external JSON record.  Every field the server ever reads is an
explicit option: `none` models an absent (or `null`) JSON field.  `address`
and `company` stand for the nested objects; the server only ever serializes
them, so they are modelled by their serialized text. -/
structure RawItem where
  id : Option Int := none
  userId : Option Int := none
  postId : Option Int := none
  albumId : Option Int := none
  title : Option String := none
  name : Option String := none
  email : Option String := none
  completed : Option Bool := none
  url : Option String := none
  thumbnailUrl : Option String := none
  body : Option String := none
  username : Option String := none
  phone : Option String := none
  website : Option String := none
  address : Option String := none
  company : Option String := none
deriving DecidableEq, Repr

/-- A decoded JSON body returned by the remote API: either an array of
records or a single record object. -/
inductive JsData where
  | arr : List RawItem → JsData
  | obj : RawItem → JsData
deriving DecidableEq, Repr

/-- Truthiness of `item.completed` under `Boolean(...)`: a missing field is
falsy, a boolean is itself. -/
def jsBool (c : Option Bool) : Bool := c.getD false

/-- Numeric value of a boolean under `Number(Boolean(x))`. -/
def b2i (b : Bool) : Int := if b then 1 else 0

/-- JavaScript `x || y` specialised to comparator results: `0` is falsy. -/
def jsOr (x y : Int) : Int := if x = 0 then y else x

/-- Model of `String.prototype.localeCompare` used by the users comparator:
negative when the first string precedes the second, zero on equality,
positive otherwise (with Lean's total order on strings standing for the
locale order). -/
def strCmpInt (s t : String) : Int := if s < t then -1 else if t < s then 1 else 0

/-- Comparator of `sortApiData` for `/users`: by `name` (missing names read
as `''`), ties by ascending `id` (missing ids read as `0`). -/
def usersCmp (a b : RawItem) : Int :=
  let an := strCmpInt (a.name.getD "") (b.name.getD "")
  if an ≠ 0 then an else (a.id.getD 0) - (b.id.getD 0)

/-- Comparator of `sortApiData` for `/posts` and `/albums`: by `userId`,
then `id`. -/
def userIdCmp (a b : RawItem) : Int :=
  jsOr ((a.userId.getD 0) - (b.userId.getD 0)) ((a.id.getD 0) - (b.id.getD 0))

/-- Comparator of `sortApiData` for `/photos`: by `albumId`, then `id`. -/
def albumIdCmp (a b : RawItem) : Int :=
  jsOr ((a.albumId.getD 0) - (b.albumId.getD 0)) ((a.id.getD 0) - (b.id.getD 0))

/-- Comparator of `sortApiData` for `/comments`: by `postId`, then `id`. -/
def postIdCmp (a b : RawItem) : Int :=
  jsOr ((a.postId.getD 0) - (b.postId.getD 0)) ((a.id.getD 0) - (b.id.getD 0))

/-- Comparator of `sortApiData` for `/todos`: by `completed`
(`false` first), then `userId`, then `id`. -/
def todosCmp (a b : RawItem) : Int :=
  jsOr (b2i (jsBool a.completed) - b2i (jsBool b.completed))
    (jsOr ((a.userId.getD 0) - (b.userId.getD 0)) ((a.id.getD 0) - (b.id.getD 0)))

/-- The `le` relation a stable comparator sort induces: keep `a` no later
than `b` exactly when the comparator is non-positive. -/
def usersLe (a b : RawItem) : Bool := usersCmp a b ≤ 0

/-- `le` for the `/posts` and `/albums` comparator. -/
def userIdLe (a b : RawItem) : Bool := userIdCmp a b ≤ 0

/-- `le` for the `/photos` comparator. -/
def albumIdLe (a b : RawItem) : Bool := albumIdCmp a b ≤ 0

/-- `le` for the `/comments` comparator. -/
def postIdLe (a b : RawItem) : Bool := postIdCmp a b ≤ 0

/-- `le` for the `/todos` comparator. -/
def todosLe (a b : RawItem) : Bool := todosCmp a b ≤ 0

/-- Model of `sortApiData`: non-arrays pass through; arrays are sorted by
the per-endpoint comparator with a stable sort (`Array.prototype.sort` is
stable), and an unknown endpoint returns the copied array unchanged. -/
def sortApiData (endpoint : String) (data : JsData) : JsData :=
  match data with
  | .obj it => .obj it
  | .arr l =>
    if endpoint = "/users" then .arr (l.mergeSort usersLe)
    else if endpoint = "/posts" then .arr (l.mergeSort userIdLe)
    else if endpoint = "/albums" then .arr (l.mergeSort userIdLe)
    else if endpoint = "/photos" then .arr (l.mergeSort albumIdLe)
    else if endpoint = "/todos" then .arr (l.mergeSort todosLe)
    else if endpoint = "/comments" then .arr (l.mergeSort postIdLe)
    else .arr l

/-- Model of `itemsArray = Array.isArray(apiData) ? apiData : [apiData]`. -/
def toItemsArray (data : JsData) : List RawItem :=
  match data with
  | .arr l => l
  | .obj it => [it]

/-- One row of the append-only `api_items` table (`id` is the
`AUTOINCREMENT` primary key, assigned at insertion). -/
structure ItemRow where
  id : Int
  endpoint : String
  item_id : Option Int
  user_id : Option Int
  post_id : Option Int
  album_id : Option Int
  title : Option String
  name : Option String
  email : Option String
  completed : Option Int
  url : Option String
  thumbnailUrl : Option String
  body : Option String
deriving DecidableEq, Repr

/-- The filter map sent to the remote API (and recorded in the audit row):
the three optional keys of `params` in the fetch handler, as strings. -/
structure FParams where
  userId : Option String := none
  postId : Option String := none
  albumId : Option String := none
deriving DecidableEq, Repr

/-- One row of the append-only `api_responses` audit table.  The server
stores `JSON.stringify` of the parameters and payload; serialization being
injective packaging, the row keeps the structured values themselves. -/
structure AuditRow where
  id : Int
  api_endpoint : String
  parameters : FParams
  response_data : JsData
deriving DecidableEq, Repr

/-- One row of the `users` domain table. -/
structure UserRow where
  id : Int
  name : Option String
  username : Option String
  email : Option String
  phone : Option String
  website : Option String
  address_json : Option String
  company_json : Option String
deriving DecidableEq, Repr

/-- One row of the `posts` domain table (`user_id` is `NOT NULL`). -/
structure PostRow where
  id : Int
  user_id : Int
  title : Option String
  body : Option String
deriving DecidableEq, Repr

/-- One row of the `comments` domain table (`post_id` is `NOT NULL`). -/
structure CommentRow where
  id : Int
  post_id : Int
  name : Option String
  email : Option String
  body : Option String
deriving DecidableEq, Repr

/-- One row of the `albums` domain table (`user_id` is `NOT NULL`). -/
structure AlbumRow where
  id : Int
  user_id : Int
  title : Option String
deriving DecidableEq, Repr

/-- One row of the `photos` domain table (`album_id` is `NOT NULL`). -/
structure PhotoRow where
  id : Int
  album_id : Int
  title : Option String
  url : Option String
  thumbnailUrl : Option String
deriving DecidableEq, Repr

/-- One row of the `todos` domain table (`user_id` is `NOT NULL`). -/
structure TodoRow where
  id : Int
  user_id : Int
  title : Option String
  completed : Option Int
deriving DecidableEq, Repr

/-- The whole SQLite database: the audit log, the normalized item log and
the six domain tables, each as its list of rows in storage order. -/
structure DBState where
  api_responses : List AuditRow := []
  api_items : List ItemRow := []
  users : List UserRow := []
  posts : List PostRow := []
  comments : List CommentRow := []
  albums : List AlbumRow := []
  photos : List PhotoRow := []
  todos : List TodoRow := []
deriving DecidableEq, Repr

/-- Fresh id a rowid table hands out when the inserted id is `NULL`
(`AUTOINCREMENT` and plain `INTEGER PRIMARY KEY` both pick an id larger
than every id in use). -/
def nextIdBy (getId : ρ → Int) (rows : List ρ) : Int :=
  (rows.foldr (fun r m => max (getId r) m) 0) + 1

/-- Model of `normalizeItem(ep, item)` from the fetch handler, together
with the auto-assigned row id `nid`: the base row copies `id`, `userId`,
`postId`, `albumId` and nulls the rest, then the endpoint-specific branch
fills its fields. -/
def normalizeItem (ep : String) (it : RawItem) (nid : Int) : ItemRow :=
  let base : ItemRow :=
    { id := nid, endpoint := ep, item_id := it.id, user_id := it.userId,
      post_id := it.postId, album_id := it.albumId, title := none, name := none,
      email := none, completed := none, url := none, thumbnailUrl := none,
      body := none }
  if ep = "/posts" then { base with title := it.title, body := it.body }
  else if ep = "/users" then { base with name := it.name, email := it.email }
  else if ep = "/albums" then { base with title := it.title }
  else if ep = "/photos" then
    { base with
      title := it.title,
      url := it.url,
      thumbnailUrl := it.thumbnailUrl,
      album_id := (match it.albumId with | some v => some v | none => base.album_id) }
  else if ep = "/todos" then
    { base with
      title := it.title,
      completed := (match it.completed with | some b => some (if b then 1 else 0) | none => none) }
  else if ep = "/comments" then
    { base with
      name := it.name,
      email := it.email,
      body := it.body,
      post_id := (match it.postId with | some v => some v | none => base.post_id) }
  else base

/-- Model of `insertItems`: one committed transaction appending a
normalized row per batch item to `api_items` (the table has no constraints
a normalized row can violate, so the transaction always commits). -/
def insertApiItems (ep : String) (items : List RawItem) (st : DBState) : DBState :=
  { st with api_items :=
      items.foldl (fun acc it => acc ++ [normalizeItem ep it (nextIdBy ItemRow.id acc)]) st.api_items }

/-- Model of `INSERT ... ON CONFLICT(id) DO UPDATE SET <every non-key
column>`: when a row with the new row's id exists it is overwritten in
place, otherwise the new row is appended. -/
def upsertBy (getId : ρ → Int) (r : ρ) (rows : List ρ) : List ρ :=
  if rows.any (fun x => getId x = getId r) then
    rows.map (fun x => if getId x = getId r then r else x)
  else rows ++ [r]

/-- Upsert driven by the item's own id: an explicit id keys the conflict
clause, a missing id is inserted as `NULL` and gets a fresh rowid. -/
def upsertAuto (getId : ρ → Int) (mk : Int → ρ) (key : Option Int) (rows : List ρ) : List ρ :=
  match key with
  | some k => upsertBy getId (mk k) rows
  | none => rows ++ [mk (nextIdBy getId rows)]

/-- Row the `/users` upsert statement binds for one item. -/
def mkUserRow (it : RawItem) (k : Int) : UserRow :=
  { id := k, name := it.name, username := it.username, email := it.email,
    phone := it.phone, website := it.website, address_json := it.address,
    company_json := it.company }

/-- Row the `/posts` upsert statement binds for one item with `user_id`
value `u`. -/
def mkPostRow (it : RawItem) (u : Int) (k : Int) : PostRow :=
  { id := k, user_id := u, title := it.title, body := it.body }

/-- Row the `/comments` upsert statement binds. -/
def mkCommentRow (it : RawItem) (p : Int) (k : Int) : CommentRow :=
  { id := k, post_id := p, name := it.name, email := it.email, body := it.body }

/-- Row the `/albums` upsert statement binds. -/
def mkAlbumRow (it : RawItem) (u : Int) (k : Int) : AlbumRow :=
  { id := k, user_id := u, title := it.title }

/-- Row the `/photos` upsert statement binds. -/
def mkPhotoRow (it : RawItem) (a : Int) (k : Int) : PhotoRow :=
  { id := k, album_id := a, title := it.title, url := it.url,
    thumbnailUrl := it.thumbnailUrl }

/-- Row the `/todos` upsert statement binds (the `completed` flag becomes
`0`/`1` only for an actual boolean). -/
def mkTodoRow (it : RawItem) (u : Int) (k : Int) : TodoRow :=
  { id := k, user_id := u, title := it.title,
    completed := (match it.completed with | some b => some (if b then 1 else 0) | none => none) }

/-- One domain upsert inside the transaction of `upsertDomain`.  A child
row whose parent-id value is missing violates the `NOT NULL` constraint;
one naming an unknown parent violates the enforced foreign key
(`PRAGMA foreign_keys = ON`); either aborts the statement with an error. -/
def upsertDomainStep (ep : String) (it : RawItem) (st : DBState) : Except String DBState :=
  if ep = "/users" then
    .ok { st with users := upsertAuto UserRow.id (mkUserRow it) it.id st.users }
  else if ep = "/posts" then
    match it.userId with
    | none => .error "NOT NULL constraint failed: posts.user_id"
    | some u =>
      if st.users.any (fun r => r.id = u) then
        .ok { st with posts := upsertAuto PostRow.id (mkPostRow it u) it.id st.posts }
      else .error "FOREIGN KEY constraint failed"
  else if ep = "/comments" then
    match it.postId with
    | none => .error "NOT NULL constraint failed: comments.post_id"
    | some p =>
      if st.posts.any (fun r => r.id = p) then
        .ok { st with comments := upsertAuto CommentRow.id (mkCommentRow it p) it.id st.comments }
      else .error "FOREIGN KEY constraint failed"
  else if ep = "/albums" then
    match it.userId with
    | none => .error "NOT NULL constraint failed: albums.user_id"
    | some u =>
      if st.users.any (fun r => r.id = u) then
        .ok { st with albums := upsertAuto AlbumRow.id (mkAlbumRow it u) it.id st.albums }
      else .error "FOREIGN KEY constraint failed"
  else if ep = "/photos" then
    match it.albumId with
    | none => .error "NOT NULL constraint failed: photos.album_id"
    | some a =>
      if st.albums.any (fun r => r.id = a) then
        .ok { st with photos := upsertAuto PhotoRow.id (mkPhotoRow it a) it.id st.photos }
      else .error "FOREIGN KEY constraint failed"
  else if ep = "/todos" then
    match it.userId with
    | none => .error "NOT NULL constraint failed: todos.user_id"
    | some u =>
      if st.users.any (fun r => r.id = u) then
        .ok { st with todos := upsertAuto TodoRow.id (mkTodoRow it u) it.id st.todos }
      else .error "FOREIGN KEY constraint failed"
  else .ok st

/-- Sequential body of the `upsertDomain` transaction: each batch item is
upserted in order; the first failing statement aborts the rest. -/
def upsertDomainGo (ep : String) (items : List RawItem) (st : DBState) : Except String DBState :=
  match items with
  | [] => .ok st
  | it :: rest =>
    match upsertDomainStep ep it st with
    | .error e => .error e
    | .ok st1 => upsertDomainGo ep rest st1

/-- HTTP response of the remote API as the fetcher sees it: a status code
and, when the body is consumed, its decoded JSON. -/
structure HttpResp where
  status : Nat
  body : JsData
deriving DecidableEq, Repr

/-- Truthiness of an optional string value: absent and the empty string
are falsy, every other string is truthy. -/
def jsTruthy : Option String → Bool
  | none => false
  | some s => s ≠ ""

/-- Query pairs `fetchFromAPI` appends to the URL: the keys of the filter
map in insertion order (`userId`, `postId`, `albumId`), each kept only when
its value is neither absent, `null` nor the empty string. -/
def queryPairs (p : FParams) : List (String × String) :=
  (match p.userId with | some s => if s ≠ "" then [("userId", s)] else [] | none => []) ++
  (match p.postId with | some s => if s ≠ "" then [("postId", s)] else [] | none => []) ++
  (match p.albumId with | some s => if s ≠ "" then [("albumId", s)] else [] | none => [])

/-- Model of `fetchFromAPI` once the HTTP exchange has happened: a
non-success status (`response.ok` is `200..299`) throws an error carrying
the status, otherwise the decoded JSON body is returned. -/
def fetchFromAPI (resp : HttpResp) : Except Nat JsData :=
  if 200 ≤ resp.status ∧ resp.status ≤ 299 then .ok resp.body
  else .error resp.status

/-- Body of `POST /api/fetch-data`, with the JSON field values the client
form sends as strings. -/
structure FetchBody where
  endpoint : String
  userId : Option String := none
  postId : Option String := none
  albumId : Option String := none
deriving DecidableEq, Repr

/-- The six accepted endpoint selectors of the fetch handler. -/
def validEndpoints : List String :=
  ["/posts", "/users", "/albums", "/photos", "/todos", "/comments"]

/-- Filter map the fetch handler builds from its body: each key is added
only when its body value is truthy. -/
def buildParams (body : FetchBody) : FParams :=
  { userId := if jsTruthy body.userId then body.userId else none,
    postId := if jsTruthy body.postId then body.postId else none,
    albumId := if jsTruthy body.albumId then body.albumId else none }

/-- Model of the audit insert into `api_responses`: one appended row with
a fresh autoincrement id, the endpoint, the filter map and the full sorted
payload. -/
def insertAudit (ep : String) (p : FParams) (payload : JsData) (st : DBState) : DBState :=
  { st with api_responses :=
      st.api_responses ++
        [{ id := nextIdBy AuditRow.id st.api_responses, api_endpoint := ep,
           parameters := p, response_data := payload }] }

/-- HTTP response of this server, reduced to the parts the claims speak
about: the status code and, where returned, the audit id of the saved
fetch, the number of inserted item rows and the delete-all count. -/
structure Response where
  status : Nat
  savedId : Option Int := none
  itemsInserted : Option Nat := none
  deletedCount : Option Nat := none
deriving DecidableEq, Repr

/-- Handler of `POST /api/fetch-data`.  The remote exchange is an input:
`remote` is what `fetchFromAPI` produced.  Control flow follows the
source: endpoint validation (400), fetch failure caught (500), normalized
insert (always commits), domain upsert transaction (rolled back and 500 on
failure), audit insert, 200 response. -/
def fetchDataHandler (body : FetchBody) (remote : Except Nat JsData) (st : DBState) :
    Response × DBState :=
  if body.endpoint ∈ validEndpoints then
    match remote with
    | .error _ => ({ status := 500 }, st)
    | .ok payload =>
      let apiData := sortApiData body.endpoint payload
      let itemsArray := toItemsArray apiData
      let st1 := insertApiItems body.endpoint itemsArray st
      match upsertDomainGo body.endpoint itemsArray st1 with
      | .error _ => ({ status := 500 }, st1)
      | .ok st2 =>
        let st3 := insertAudit body.endpoint (buildParams body) apiData st2
        ({ status := 200,
           savedId := some (nextIdBy AuditRow.id st2.api_responses),
           itemsInserted := some itemsArray.length }, st3)
  else ({ status := 400 }, st)

/-- Decimal digit run parser backing the `Number(...)` model. -/
def parseDigitsAux : List Char → Nat → Option Nat
  | [], acc => some acc
  | c :: cs, acc =>
    if '0' ≤ c ∧ c ≤ '9' then parseDigitsAux cs (acc * 10 + (c.toNat - 48)) else none

/-- Signed integer literal parser backing the `Number(...)` model; the
empty character list is `0`, as `Number('')` is. -/
def parseIntChars : List Char → Option Int
  | [] => some 0
  | '-' :: cs =>
    match cs with
    | [] => none
    | _ => (parseDigitsAux cs 0).map (fun n => -(n : Int))
  | cs => (parseDigitsAux cs 0).map (fun n => (n : Int))

/-- Model of `Number(s)` on the strings the handlers feed it: surrounding
spaces are trimmed, an integer literal parses to its value, blank input is
`0`, and `none` stands for every non-integer outcome (`NaN`, which the
driver binds as SQL `NULL`, or a fractional value): a comparison of an
INTEGER column against either matches no row. -/
def jsNumber (s : String) : Option Int :=
  parseIntChars (((s.toList.dropWhile (fun c => c = ' ')).reverse.dropWhile
    (fun c => c = ' ')).reverse)

/-- Query string of `GET /api/items`; each parameter is absent or a string. -/
structure ItemsQuery where
  endpoint : Option String := none
  userId : Option String := none
  postId : Option String := none
  albumId : Option String := none
  completed : Option String := none
  limit : Option String := none
  offset : Option String := none
deriving DecidableEq, Repr

/-- WHERE clause of `GET /api/items` applied to one row: each filter is
added only when its query value is truthy (`completed` only on the literal
strings `'0'`/`'1'`), and a bound `NULL` (from `NaN`) matches nothing. -/
def rowMatches (q : ItemsQuery) (r : ItemRow) : Bool :=
  (if jsTruthy q.endpoint then decide (r.endpoint = (q.endpoint.getD "")) else true) &&
  (if jsTruthy q.userId then
    (match jsNumber (q.userId.getD "") with | some v => decide (r.user_id = some v) | none => false)
   else true) &&
  (if jsTruthy q.postId then
    (match jsNumber (q.postId.getD "") with | some v => decide (r.post_id = some v) | none => false)
   else true) &&
  (if jsTruthy q.albumId then
    (match jsNumber (q.albumId.getD "") with | some v => decide (r.album_id = some v) | none => false)
   else true) &&
  (match q.completed with
   | some "0" => decide (r.completed = some 0)
   | some "1" => decide (r.completed = some 1)
   | _ => true)

/-- A nullable integer column as an ordered value: SQL `NULL` sorts below
every integer under `ORDER BY ... ASC`. -/
def toBot (o : Option Int) : WithBot Int :=
  match o with
  | none => ⊥
  | some v => (v : WithBot Int)

/-- Sort key of `ORDER BY endpoint ASC, user_id ASC, post_id ASC,
album_id ASC, item_id ASC` as a lexicographic tuple. -/
def itemSortKey (r : ItemRow) :
    Lex (String × Lex (WithBot Int × Lex (WithBot Int × Lex (WithBot Int × WithBot Int)))) :=
  toLex (r.endpoint,
    toLex (toBot r.user_id,
      toLex (toBot r.post_id, toLex (toBot r.album_id, toBot r.item_id))))

/-- Row order produced by the ORDER BY clause of `GET /api/items`. -/
def itemsLe (a b : ItemRow) : Bool := decide (itemSortKey a ≤ itemSortKey b)

/-- Effective LIMIT value: `100` when the parameter is absent, otherwise
`Number(...)` of it (`none` models binding `NaN`, i.e. `LIMIT NULL`, which
SQLite treats as no limit, as it does any negative limit). -/
def effLimit (q : ItemsQuery) : Option Int :=
  match q.limit with
  | none => some 100
  | some s => jsNumber s

/-- Effective OFFSET value: `0` when absent, `Number(...)` otherwise. -/
def effOffset (q : ItemsQuery) : Option Int :=
  match q.offset with
  | none => some 0
  | some s => jsNumber s

/-- LIMIT semantics: `NULL` or a negative count keeps everything, a
non-negative count keeps that prefix. -/
def applyLimit (lim : Option Int) (l : List ItemRow) : List ItemRow :=
  match lim with
  | none => l
  | some n => if n < 0 then l else l.take n.toNat

/-- OFFSET semantics: `NULL` or a non-positive offset skips nothing, a
positive one drops that prefix. -/
def applyOffset (off : Option Int) (l : List ItemRow) : List ItemRow :=
  match off with
  | none => l
  | some n => l.drop n.toNat

/-- Handler of `GET /api/items`: the rows passing the WHERE clause, in
ORDER BY order, with OFFSET then LIMIT applied. -/
def itemsHandler (q : ItemsQuery) (st : DBState) : List ItemRow :=
  applyLimit (effLimit q) (applyOffset (effOffset q) ((st.api_items.filter (rowMatches q)).mergeSort itemsLe))

/-- Handler of `GET /api/posts`: rows of `posts`, optionally filtered by a
truthy `userId` query value, ordered by id. -/
def postsHandler (userId : Option String) (st : DBState) : List PostRow :=
  let rows :=
    if jsTruthy userId then
      st.posts.filter (fun r =>
        match jsNumber (userId.getD "") with
        | some v => decide (r.user_id = v)
        | none => false)
    else st.posts
  rows.mergeSort (fun a b => decide (a.id ≤ b.id))

/-- Handler of `DELETE /api/stored-data/:id`: the delete statement removes
the rows with that id; zero changed rows yields a 404 and leaves the table
as it was. -/
def deleteStoredDataById (i : Int) (st : DBState) : Response × DBState :=
  let remaining := st.api_responses.filter (fun r => decide (r.id ≠ i))
  if st.api_responses.length - remaining.length = 0 then ({ status := 404 }, st)
  else ({ status := 200 }, { st with api_responses := remaining })

/-- Handler of `DELETE /api/stored-data`: removes every audit row and
reports `this.changes`, the number of rows the statement deleted. -/
def deleteAllStoredData (st : DBState) : Response × DBState :=
  ({ status := 200, deletedCount := some st.api_responses.length },
   { st with api_responses := [] })

/-- Number of rows carrying external id `v` in the domain table that
endpoint `ep` populates. -/
def domainIdCount (ep : String) (v : Int) (st : DBState) : Nat :=
  if ep = "/users" then st.users.countP (fun r => decide (r.id = v))
  else if ep = "/posts" then st.posts.countP (fun r => decide (r.id = v))
  else if ep = "/comments" then st.comments.countP (fun r => decide (r.id = v))
  else if ep = "/albums" then st.albums.countP (fun r => decide (r.id = v))
  else if ep = "/photos" then st.photos.countP (fun r => decide (r.id = v))
  else if ep = "/todos" then st.todos.countP (fun r => decide (r.id = v))
  else 0

/-- Primary-key invariant every reachable database satisfies: no domain
table holds two rows with the same id. -/
def domainIdsNodup (st : DBState) : Prop :=
  (st.users.map UserRow.id).Nodup ∧ (st.posts.map PostRow.id).Nodup ∧
  (st.comments.map CommentRow.id).Nodup ∧ (st.albums.map AlbumRow.id).Nodup ∧
  (st.photos.map PhotoRow.id).Nodup ∧ (st.todos.map TodoRow.id).Nodup

/-- Pure effect of a successful upsert batch on one table: each item in
order, keyed by its id (fresh rowid when the id is missing). -/
def applyBatch (getId : ρ → Int) (mk : RawItem → Int → ρ) (items : List RawItem) (l : List ρ) : List ρ :=
  items.foldl (fun acc it => upsertAuto getId (mk it) it.id acc) l

/-- Row the `/posts` upsert binds on the success path, where the item's
`userId` is present (a missing one already failed the `NOT NULL` check). -/
def mkPostRowOk (it : RawItem) (k : Int) : PostRow := mkPostRow it (it.userId.getD 0) k

/-- Row the `/comments` upsert binds on the success path. -/
def mkCommentRowOk (it : RawItem) (k : Int) : CommentRow := mkCommentRow it (it.postId.getD 0) k

/-- Row the `/albums` upsert binds on the success path. -/
def mkAlbumRowOk (it : RawItem) (k : Int) : AlbumRow := mkAlbumRow it (it.userId.getD 0) k

/-- Row the `/photos` upsert binds on the success path. -/
def mkPhotoRowOk (it : RawItem) (k : Int) : PhotoRow := mkPhotoRow it (it.albumId.getD 0) k

/-- Row the `/todos` upsert binds on the success path. -/
def mkTodoRowOk (it : RawItem) (k : Int) : TodoRow := mkTodoRow it (it.userId.getD 0) k

/-- Last batch item carrying external id `k`; the value its upsert leaves
behind wins within a batch. -/
def lastKeyed (k : Int) : List RawItem → Option RawItem
  | [] => none
  | it :: rest =>
    match lastKeyed k rest with
    | some r => some r
    | none => if it.id = some k then some it else none

/-- Sort key of the `/todos` comparator: completed flag (`false` first),
owning user id, item id. -/
def todosKey (it : RawItem) : Int × Int × Int :=
  (b2i (jsBool it.completed), it.userId.getD 0, it.id.getD 0)

/-- Sort key of the `/users` comparator: name, then item id. -/
def usersKey (it : RawItem) : String × Int :=
  (it.name.getD "", it.id.getD 0)

/-- Sample external item used as a concrete witness input. -/
def witnessItem : RawItem := { id := some 1 }

/-- Sample fetch body used as a concrete witness input. -/
def witnessBody : FetchBody := { endpoint := "/users" }

/-- First pipeline run of the witness scenario, on the empty database. -/
def w1 : Response × DBState := fetchDataHandler witnessBody (.ok (.arr [witnessItem])) {}

/-- Second, identical pipeline run of the witness scenario. -/
def w2 : Response × DBState := fetchDataHandler witnessBody (.ok (.arr [witnessItem])) w1.2

/-- Audit row the first witness run stores. -/
def witnessAudit1 : AuditRow :=
  { id := 1, api_endpoint := "/users", parameters := {}, response_data := JsData.arr [witnessItem] }

/-- Normalized item row the first witness run stores. -/
def witnessItemRow1 : ItemRow :=
  { id := 1
    endpoint := "/users"
    item_id := some 1
    user_id := none
    post_id := none
    album_id := none
    title := none
    name := none
    email := none
    completed := none
    url := none
    thumbnailUrl := none
    body := none }

/-- Domain user row the witness runs upsert. -/
def witnessUserRow1 : UserRow :=
  { id := 1
    name := none
    username := none
    email := none
    phone := none
    website := none
    address_json := none
    company_json := none }

/-- Database state the first witness run produces, written out. -/
def witnessState1 : DBState :=
  { api_responses := [witnessAudit1]
    api_items := [witnessItemRow1]
    users := [witnessUserRow1] }

/-- Database state with a single normalized item, used as a witness. -/
def singleItemState : DBState := { api_items := [witnessItemRow1] }

/-- Normalized item row whose owning user id is `0`. -/
def rowUserZero : ItemRow := { witnessItemRow1 with id := 1, user_id := some 0 }

/-- Normalized item row whose owning user id is `5`. -/
def rowUserFive : ItemRow := { witnessItemRow1 with id := 2, item_id := some 2, user_id := some 5 }

/-- Database state holding one row with a zero user id and one with a
non-zero user id. -/
def zeroFilterState : DBState := { api_items := [rowUserZero, rowUserFive] }

/-- Sample audit row used as a concrete witness input. -/
def sampleAudit : AuditRow :=
  { id := 1, api_endpoint := "/posts", parameters := {}, response_data := .arr [] }

/-- Sample database state holding exactly one audit row. -/
def auditOnlyState : DBState := { api_responses := [sampleAudit] }

/-! ## Lemmas about the comparators and the stable sort -/

theorem todosLe_trans (a b c : RawItem) (h1 : todosLe a b = true) (h2 : todosLe b c = true) :
    todosLe a c = true := by
  simp only [todosLe, todosCmp, jsOr, b2i, jsBool, decide_eq_true_eq] at h1 h2 ⊢
  split_ifs at h1 h2 ⊢ <;> omega

theorem todosLe_total (a b : RawItem) : todosLe a b = true ∨ todosLe b a = true := by
  simp only [todosLe, todosCmp, jsOr, b2i, jsBool, decide_eq_true_eq]
  split_ifs <;> omega

theorem todosLe_iff (a b : RawItem) : todosLe a b = true ↔
    (b2i (jsBool a.completed) < b2i (jsBool b.completed) ∨
      (b2i (jsBool a.completed) = b2i (jsBool b.completed) ∧
        (a.userId.getD 0 < b.userId.getD 0 ∨
          (a.userId.getD 0 = b.userId.getD 0 ∧ a.id.getD 0 ≤ b.id.getD 0)))) := by
  simp only [todosLe, todosCmp, jsOr, decide_eq_true_eq]
  split_ifs <;> omega

theorem usersLe_iff (a b : RawItem) : usersLe a b = true ↔
    (a.name.getD "" < b.name.getD "" ∨
      (a.name.getD "" = b.name.getD "" ∧ a.id.getD 0 ≤ b.id.getD 0)) := by
  rcases lt_trichotomy (a.name.getD "") (b.name.getD "") with h | h | h
  · simp only [usersLe, usersCmp, strCmpInt, if_pos h]
    simp [h]
  · simp only [usersLe, usersCmp, strCmpInt, h, lt_irrefl, if_neg (lt_irrefl _)]
    simp
  · have hns : ¬ a.name.getD "" < b.name.getD "" := asymm h
    have hne : a.name.getD "" ≠ b.name.getD "" := ne_of_gt h
    simp only [usersLe, usersCmp, strCmpInt, if_neg hns, if_pos h]
    simp [hns, hne]

theorem usersLe_trans (a b c : RawItem) (h1 : usersLe a b = true) (h2 : usersLe b c = true) :
    usersLe a c = true := by
  rw [usersLe_iff] at h1 h2 ⊢
  rcases h1 with h1 | ⟨h1, h1i⟩ <;> rcases h2 with h2 | ⟨h2, h2i⟩
  · exact Or.inl (lt_trans h1 h2)
  · exact Or.inl (h2 ▸ h1)
  · exact Or.inl (h1 ▸ h2)
  · exact Or.inr ⟨h1.trans h2, le_trans h1i h2i⟩

theorem usersLe_total (a b : RawItem) : usersLe a b = true ∨ usersLe b a = true := by
  rw [usersLe_iff, usersLe_iff]
  rcases lt_trichotomy (a.name.getD "") (b.name.getD "") with h | h | h
  · exact Or.inl (Or.inl h)
  · rcases le_total (a.id.getD 0) (b.id.getD 0) with h2 | h2
    · exact Or.inl (Or.inr ⟨h, h2⟩)
    · exact Or.inr (Or.inr ⟨h.symm, h2⟩)
  · exact Or.inr (Or.inl h)

theorem mergeSort_filter_key {α : Type} (le : α → α → Bool)
    (htrans : ∀ a b c, le a b = true → le b c = true → le a c = true)
    (htotal : ∀ a b, le a b = true ∨ le b a = true)
    (p : α → Bool) (hp : ∀ a b, p a = true → p b = true → le a b = true)
    (l : List α) : (l.mergeSort le).filter p = l.filter p := by
  have htr : ∀ (a b c : α), le a b → le b c → le a c := htrans
  have hto : ∀ (a b : α), le a b || le b a := by
    intro a b
    rcases htotal a b with h | h <;> simp [h]
  have hpw : (l.filter p).Pairwise (fun a b => le a b) := by
    apply List.pairwise_of_forall_mem_list
    intro a ha b hb
    exact hp a b (List.of_mem_filter ha) (List.of_mem_filter hb)
  have hsub : List.Sublist (l.filter p) (l.mergeSort le) :=
    List.sublist_mergeSort htr hto hpw (List.filter_sublist l)
  have hsub2 : List.Sublist (l.filter p) ((l.mergeSort le).filter p) := by
    have h1 := hsub.filter p
    rwa [List.filter_eq_self.mpr (fun a ha => List.of_mem_filter ha)] at h1
  have hlen : (l.filter p).length = ((l.mergeSort le).filter p).length :=
    (((List.mergeSort_perm l le).filter p).length_eq).symm
  exact (hsub2.eq_of_length hlen).symm

theorem todosLe_completed (a b : RawItem) (h : todosLe a b = true) :
    (!jsBool a.completed || jsBool b.completed) = true := by
  rcases (todosLe_iff a b).mp h with h1 | ⟨h1, h2⟩ <;>
    cases ha : jsBool a.completed <;> cases hb : jsBool b.completed <;>
      simp_all [b2i]

theorem todosKey_eq_le (a b : RawItem) (h : todosKey a = todosKey b) : todosLe a b = true := by
  rw [todosLe_iff]
  simp only [todosKey, Prod.mk.injEq] at h
  omega

theorem todosLe_trans_coe : ∀ (a b c : RawItem), todosLe a b → todosLe b c → todosLe a c :=
  todosLe_trans

theorem todosLe_total_coe : ∀ (a b : RawItem), todosLe a b || todosLe b a := by
  intro a b
  rcases todosLe_total a b with h | h <;> simp [h]

theorem usersLe_trans_coe : ∀ (a b c : RawItem), usersLe a b → usersLe b c → usersLe a c :=
  usersLe_trans

theorem usersLe_total_coe : ∀ (a b : RawItem), usersLe a b || usersLe b a := by
  intro a b
  rcases usersLe_total a b with h | h <;> simp [h]

theorem sortApiData_todos_arr (l : List RawItem) :
    toItemsArray (sortApiData "/todos" (.arr l)) = l.mergeSort todosLe := by
  simp [sortApiData, toItemsArray]

theorem sortApiData_users_arr (l : List RawItem) :
    toItemsArray (sortApiData "/users" (.arr l)) = l.mergeSort usersLe := by
  simp [sortApiData, toItemsArray]

/-- C4: sorting an array of todo records with endpoint `/todos` returns a
permutation ordered by completed-false-first, then owning user id, then
item id (so every `completed=false` item precedes every `completed=true`
item regardless of ids); the comparator order is total and the sort is
stable (every comparator-key class keeps its original relative order). -/
theorem sortTodos_ordered_stable_total (l : List RawItem) :
    (toItemsArray (sortApiData "/todos" (.arr l))).Perm l ∧
    List.Pairwise (fun a b => todosLe a b = true) (toItemsArray (sortApiData "/todos" (.arr l))) ∧
    List.Pairwise (fun a b => (!jsBool a.completed || jsBool b.completed) = true)
      (toItemsArray (sortApiData "/todos" (.arr l))) ∧
    (∀ k : Int × Int × Int,
      (toItemsArray (sortApiData "/todos" (.arr l))).filter (fun x => decide (todosKey x = k)) =
        l.filter (fun x => decide (todosKey x = k))) ∧
    (∀ a b, todosLe a b = true ∨ todosLe b a = true) ∧
    (∀ a b, todosLe a b = true ↔
      (b2i (jsBool a.completed) < b2i (jsBool b.completed) ∨
        (b2i (jsBool a.completed) = b2i (jsBool b.completed) ∧
          (a.userId.getD 0 < b.userId.getD 0 ∨
            (a.userId.getD 0 = b.userId.getD 0 ∧ a.id.getD 0 ≤ b.id.getD 0))))) := by
  rw [sortApiData_todos_arr]
  refine ⟨List.mergeSort_perm l todosLe, ?_, ?_, ?_, todosLe_total, todosLe_iff⟩
  · exact List.sorted_mergeSort todosLe_trans_coe todosLe_total_coe l
  · exact (List.sorted_mergeSort todosLe_trans_coe todosLe_total_coe l).imp
      (fun h => todosLe_completed _ _ h)
  · intro k
    apply mergeSort_filter_key todosLe todosLe_trans todosLe_total
    intro a b ha hb
    exact todosKey_eq_le a b ((decide_eq_true_eq.mp ha).trans (decide_eq_true_eq.mp hb).symm)

/-- C5: sorting an array of user records with endpoint `/users` returns a
permutation ordered by name (ties by ascending id); the comparator order
means exactly that; a non-array payload passes through unchanged.  In this
pure embedding the input list itself is of course left untouched. -/
theorem sortUsers_ordered_passthrough (l : List RawItem) :
    (toItemsArray (sortApiData "/users" (.arr l))).Perm l ∧
    List.Pairwise (fun a b => usersLe a b = true) (toItemsArray (sortApiData "/users" (.arr l))) ∧
    (∀ a b, usersLe a b = true ↔
      (a.name.getD "" < b.name.getD "" ∨
        (a.name.getD "" = b.name.getD "" ∧ a.id.getD 0 ≤ b.id.getD 0))) ∧
    (∀ it : RawItem, sortApiData "/users" (.obj it) = .obj it) := by
  rw [sortApiData_users_arr]
  exact ⟨List.mergeSort_perm l usersLe,
    List.sorted_mergeSort usersLe_trans_coe usersLe_total_coe l,
    usersLe_iff, fun it => rfl⟩

/-- C3: a fetch body whose endpoint is not one of the six fixed selectors
gets a 400 response and leaves the database state — every table — exactly
as it was, whatever the remote exchange would have produced. -/
theorem fetchData_invalid_endpoint (body : FetchBody) (remote : Except Nat JsData)
    (st : DBState) (h : body.endpoint ∉ validEndpoints) :
    fetchDataHandler body remote st = ({ status := 400 }, st) := by
  simp [fetchDataHandler, h]

theorem fetchData_invalid_endpoint_witness :
    "/bogus" ∉ validEndpoints ∧
      fetchDataHandler { endpoint := "/bogus" } (.ok (.arr [])) {} = ({ status := 400 }, {}) :=
  ⟨by decide, fetchData_invalid_endpoint { endpoint := "/bogus" } (.ok (.arr [])) {} (by decide)⟩

/-- C6: the remote fetcher's query string carries exactly the filter keys
whose values are neither absent nor empty, and the fetch fails with the
HTTP status exactly when that status is outside the success range. -/
theorem fetchFromAPI_spec :
    (∀ (p : FParams) (k v : String),
      (k, v) ∈ queryPairs p ↔
        ((k = "userId" ∧ p.userId = some v ∧ v ≠ "") ∨
          (k = "postId" ∧ p.postId = some v ∧ v ≠ "") ∨
          (k = "albumId" ∧ p.albumId = some v ∧ v ≠ ""))) ∧
    (∀ (resp : HttpResp) (s : Nat),
      fetchFromAPI resp = .error s ↔
        (¬(200 ≤ resp.status ∧ resp.status ≤ 299) ∧ s = resp.status)) ∧
    (∀ (resp : HttpResp) (d : JsData),
      fetchFromAPI resp = .ok d ↔
        ((200 ≤ resp.status ∧ resp.status ≤ 299) ∧ d = resp.body)) := by
  refine ⟨?_, ?_, ?_⟩
  · intro p k v
    rcases p with ⟨u, po, al⟩
    simp only [queryPairs, List.mem_append]
    cases u <;> cases po <;> cases al <;> simp <;> aesop
  · intro resp s
    unfold fetchFromAPI
    split_ifs with h <;> simp_all
    omega
  · intro resp d
    unfold fetchFromAPI
    split_ifs with h <;> simp_all
    exact eq_comm

/-- C8: deleting an audit row by an id that no stored row carries returns
404 and leaves the audit table's rows (hence its row count) untouched;
delete-all empties the table and reports the number of rows it removed. -/
theorem deleteStored_spec (st : DBState) (i : Int)
    (h : ∀ r ∈ st.api_responses, r.id ≠ i) :
    deleteStoredDataById i st = ({ status := 404 }, st) ∧
    deleteAllStoredData st =
      ({ status := 200, deletedCount := some st.api_responses.length },
        { st with api_responses := [] }) := by
  constructor
  · unfold deleteStoredDataById
    have hf : st.api_responses.filter (fun r => decide (r.id ≠ i)) = st.api_responses :=
      List.filter_eq_self.mpr (fun a ha => by simpa using h a ha)
    rw [hf]
    simp
  · rfl

theorem deleteStored_spec_witness :
    (∀ r ∈ auditOnlyState.api_responses, r.id ≠ (5 : Int)) ∧
    deleteStoredDataById 5 auditOnlyState = ({ status := 404 }, auditOnlyState) :=
  ⟨by decide, (deleteStored_spec auditOnlyState 5 (by decide)).1⟩

/-! ## Generic lemmas about keyed upserts -/

theorem le_foldr_max {ρ : Type} (getId : ρ → Int) :
    ∀ (l : List ρ), ∀ x ∈ l, getId x ≤ l.foldr (fun r m => max (getId r) m) 0
  | [], x, hx => absurd hx (List.not_mem_nil x)
  | y :: ys, x, hx => by
    rcases List.mem_cons.mp hx with rfl | hx
    · simp
    · simp only [List.foldr_cons, le_max_iff]
      exact Or.inr (le_foldr_max getId ys x hx)

theorem nextIdBy_not_mem {ρ : Type} (getId : ρ → Int) (l : List ρ) :
    nextIdBy getId l ∉ l.map getId := by
  intro h
  rcases List.mem_map.mp h with ⟨x, hx, hgx⟩
  have := le_foldr_max getId l x hx
  unfold nextIdBy at hgx
  omega

theorem any_id_iff {ρ : Type} (getId : ρ → Int) (l : List ρ) (k : Int) :
    (l.any (fun x => decide (getId x = k)) = true) ↔ k ∈ l.map getId := by
  simp only [List.any_eq_true, decide_eq_true_eq, List.mem_map]

theorem map_getId_map_replace {ρ : Type} (getId : ρ → Int) (r : ρ) :
    ∀ l : List ρ, (l.map (fun x => if getId x = getId r then r else x)).map getId = l.map getId
  | [] => rfl
  | y :: ys => by
    by_cases h : getId y = getId r <;>
      simp [h, map_getId_map_replace getId r ys]

theorem map_getId_upsertBy {ρ : Type} (getId : ρ → Int) (r : ρ) (l : List ρ) :
    (upsertBy getId r l).map getId =
      if getId r ∈ l.map getId then l.map getId else l.map getId ++ [getId r] := by
  unfold upsertBy
  by_cases h : getId r ∈ l.map getId
  · rw [if_pos h]
    have ha : (l.any fun x => decide (getId x = getId r)) = true :=
      (any_id_iff getId l (getId r)).mpr h
    rw [ha]
    simp only [if_pos rfl]
    exact map_getId_map_replace getId r l
  · rw [if_neg h]
    have ha : (l.any fun x => decide (getId x = getId r)) = false := by
      rcases hb : (l.any fun x => decide (getId x = getId r)) with _ | _
      · rfl
      · exact absurd ((any_id_iff getId l (getId r)).mp hb) h
    rw [ha]
    simp

theorem map_getId_upsertAuto_nodup {ρ : Type} (getId : ρ → Int) (mk : Int → ρ)
    (hmk : ∀ k, getId (mk k) = k) (key : Option Int) (l : List ρ)
    (hnd : (l.map getId).Nodup) : ((upsertAuto getId mk key l).map getId).Nodup := by
  cases key with
  | some k =>
    unfold upsertAuto
    rw [map_getId_upsertBy, hmk]
    by_cases h : k ∈ l.map getId
    · rwa [if_pos h]
    · rw [if_neg h]
      simp [List.nodup_append, hnd, h]
  | none =>
    unfold upsertAuto
    simp only [List.map_append, List.map_cons, List.map_nil, hmk]
    simp [List.nodup_append, hnd, nextIdBy_not_mem getId l]

theorem mem_ids_upsertAuto {ρ : Type} (getId : ρ → Int) (mk : Int → ρ)
    (key : Option Int) (l : List ρ) (v : Int) (h : v ∈ l.map getId) :
    v ∈ (upsertAuto getId mk key l).map getId := by
  cases key with
  | some k =>
    unfold upsertAuto
    rw [map_getId_upsertBy]
    by_cases hk : getId (mk k) ∈ l.map getId
    · rwa [if_pos hk]
    · rw [if_neg hk]
      exact List.mem_append_left _ h
  | none =>
    unfold upsertAuto
    simp only [List.map_append]
    exact List.mem_append_left _ h

theorem mem_ids_upsertAuto_self {ρ : Type} (getId : ρ → Int) (mk : Int → ρ)
    (hmk : ∀ k, getId (mk k) = k) (k : Int) (l : List ρ) :
    k ∈ (upsertAuto getId mk (some k) l).map getId := by
  unfold upsertAuto
  rw [map_getId_upsertBy, hmk]
  by_cases h : k ∈ l.map getId
  · rwa [if_pos h]
  · rw [if_neg h]
    simp

theorem map_getId_applyBatch_nodup {ρ : Type} (getId : ρ → Int) (mk : RawItem → Int → ρ)
    (hmk : ∀ it k, getId (mk it k) = k) :
    ∀ (items : List RawItem) (l : List ρ), (l.map getId).Nodup →
      ((applyBatch getId mk items l).map getId).Nodup
  | [], _, hnd => hnd
  | it :: rest, l, hnd =>
    map_getId_applyBatch_nodup getId mk hmk rest _
      (map_getId_upsertAuto_nodup getId (mk it) (hmk it) it.id l hnd)

theorem mem_ids_applyBatch {ρ : Type} (getId : ρ → Int) (mk : RawItem → Int → ρ) :
    ∀ (items : List RawItem) (l : List ρ) (v : Int), v ∈ l.map getId →
      v ∈ (applyBatch getId mk items l).map getId
  | [], _, _, h => h
  | it :: rest, l, v, h =>
    mem_ids_applyBatch getId mk rest _ v (mem_ids_upsertAuto getId (mk it) it.id l v h)

theorem mem_ids_applyBatch_self {ρ : Type} (getId : ρ → Int) (mk : RawItem → Int → ρ)
    (hmk : ∀ it k, getId (mk it k) = k) :
    ∀ (items : List RawItem) (l : List ρ) (it : RawItem) (k : Int),
      it ∈ items → it.id = some k → k ∈ (applyBatch getId mk items l).map getId
  | [], _, _, _, hmem, _ => absurd hmem (List.not_mem_nil _)
  | it0 :: rest, l, it, k, hmem, hk => by
    rcases List.mem_cons.mp hmem with rfl | hmem
    · show k ∈ (applyBatch getId mk rest (upsertAuto getId (mk it) it.id l)).map getId
      rw [hk]
      exact mem_ids_applyBatch getId mk rest _ k
        (mem_ids_upsertAuto_self getId (mk it) (hmk it) k l)
    · exact mem_ids_applyBatch_self getId mk hmk rest _ it k hmem hk

theorem countP_eq_one_of_nodup_mem {ρ : Type} (getId : ρ → Int) (l : List ρ) (v : Int)
    (hnd : (l.map getId).Nodup) (hv : v ∈ l.map getId) :
    l.countP (fun r => decide (getId r = v)) = 1 := by
  induction l with
  | nil => cases hv
  | cons y ys ih =>
    simp only [List.map_cons, List.nodup_cons] at hnd
    rcases List.mem_cons.mp hv with hy | hy
    · rw [List.countP_cons]
      have hz : ys.countP (fun r => decide (getId r = v)) = 0 := by
        rw [List.countP_eq_zero]
        intro a ha
        simp only [decide_eq_true_eq]
        intro hav
        exact hnd.1 (hy ▸ hav ▸ List.mem_map_of_mem getId ha)
      simp [hz, hy.symm]
    · have hne : getId y ≠ v := by
        intro he
        exact hnd.1 (he ▸ hy)
      rw [List.countP_cons]
      simp [hne, ih hnd.2 hy]

theorem find?_map_replace {ρ : Type} (getId : ρ → Int) (r : ρ) (k : Int) (hk : getId r = k) :
    ∀ l : List ρ, k ∈ l.map getId →
      (l.map (fun x => if getId x = getId r then r else x)).find?
        (fun x => decide (getId x = k)) = some r
  | [], h => absurd h (List.not_mem_nil k)
  | y :: ys, h => by
    by_cases hy : getId y = getId r
    · simp only [List.map_cons, if_pos hy]
      exact List.find?_cons_of_pos _ (by simp [hk])
    · have hyk : getId y ≠ k := fun he => hy (he.trans hk.symm)
      have h2 : k ∈ ys.map getId := by
        rcases List.mem_cons.mp h with he | hm
        · exact absurd he.symm hyk
        · exact hm
      simp only [List.map_cons, if_neg hy]
      rw [List.find?_cons_of_neg _ (by simp [hyk])]
      exact find?_map_replace getId r k hk ys h2

theorem find?_map_replace_ne {ρ : Type} (getId : ρ → Int) (r : ρ) (k : Int)
    (hne : getId r ≠ k) :
    ∀ l : List ρ,
      (l.map (fun x => if getId x = getId r then r else x)).find?
          (fun x => decide (getId x = k)) =
        l.find? (fun x => decide (getId x = k))
  | [] => rfl
  | y :: ys => by
    by_cases hy : getId y = getId r
    · simp only [List.map_cons, if_pos hy]
      rw [@List.find?_cons_of_neg ρ (fun x => decide (getId x = k)) r
          (ys.map (fun x => if getId x = getId r then r else x)) (by simp [hne]),
        @List.find?_cons_of_neg ρ (fun x => decide (getId x = k)) y ys (by simp [hy, hne])]
      exact find?_map_replace_ne getId r k hne ys
    · by_cases hp : decide (getId y = k) = true
      · simp only [List.map_cons, if_neg hy]
        rw [@List.find?_cons_of_pos ρ (fun x => decide (getId x = k)) y
            (ys.map (fun x => if getId x = getId r then r else x)) hp,
          @List.find?_cons_of_pos ρ (fun x => decide (getId x = k)) y ys hp]
      · simp only [List.map_cons, if_neg hy]
        rw [@List.find?_cons_of_neg ρ (fun x => decide (getId x = k)) y
            (ys.map (fun x => if getId x = getId r then r else x)) hp,
          @List.find?_cons_of_neg ρ (fun x => decide (getId x = k)) y ys hp]
        exact find?_map_replace_ne getId r k hne ys

theorem find?_append_single {ρ : Type} (p : ρ → Bool) (r : ρ) :
    ∀ l : List ρ, (∀ x ∈ l, p x = false) → (l ++ [r]).find? p = [r].find? p
  | [], _ => rfl
  | y :: ys, h => by
    rw [List.cons_append,
      List.find?_cons_of_neg _ (by simp [h y (List.mem_cons_self ..)] : ¬ p y = true)]
    exact find?_append_single p r ys (fun x hx => h x (List.mem_cons_of_mem y hx))

theorem find?_append_single_ne {ρ : Type} (p : ρ → Bool) (r : ρ) (hr : p r = false) :
    ∀ l : List ρ, (l ++ [r]).find? p = l.find? p
  | [] => by
    show List.find? p (r :: []) = List.find? p []
    rw [List.find?_cons_of_neg _ (by simp [hr] : ¬ p r = true)]
  | y :: ys => by
    by_cases hp : p y = true
    · rw [List.cons_append, List.find?_cons_of_pos _ hp, List.find?_cons_of_pos _ hp]
    · rw [List.cons_append, List.find?_cons_of_neg _ hp, List.find?_cons_of_neg _ hp]
      exact find?_append_single_ne p r hr ys

theorem find?_eq_none_id {ρ : Type} (getId : ρ → Int) (k : Int) (l : List ρ)
    (h : k ∉ l.map getId) : l.find? (fun x => decide (getId x = k)) = none := by
  rw [List.find?_eq_none]
  intro x hx
  simp only [decide_eq_true_eq]
  intro he
  exact h (he ▸ List.mem_map_of_mem getId hx)

theorem find?_upsertBy_self {ρ : Type} (getId : ρ → Int) (r : ρ) (k : Int)
    (hk : getId r = k) (l : List ρ) :
    (upsertBy getId r l).find? (fun x => decide (getId x = k)) = some r := by
  unfold upsertBy
  by_cases h : getId r ∈ l.map getId
  · have ha : (l.any fun x => decide (getId x = getId r)) = true :=
      (any_id_iff getId l (getId r)).mpr h
    rw [ha]
    simp only [if_pos rfl]
    exact find?_map_replace getId r k hk l (hk ▸ h)
  · have ha : (l.any fun x => decide (getId x = getId r)) = false := by
      rcases hb : (l.any fun x => decide (getId x = getId r)) with _ | _
      · rfl
      · exact absurd ((any_id_iff getId l (getId r)).mp hb) h
    rw [ha]
    simp only [Bool.false_eq_true, if_false]
    rw [find?_append_single _ r l (fun x hx => by
      simp only [decide_eq_false_iff_not]
      intro he
      exact h (hk ▸ he ▸ List.mem_map_of_mem getId hx))]
    exact List.find?_cons_of_pos _ (by simp [hk])

theorem find?_upsertBy_ne {ρ : Type} (getId : ρ → Int) (r : ρ) (k : Int)
    (hne : getId r ≠ k) (l : List ρ) :
    (upsertBy getId r l).find? (fun x => decide (getId x = k)) =
      l.find? (fun x => decide (getId x = k)) := by
  unfold upsertBy
  rcases hb : (l.any fun x => decide (getId x = getId r)) with _ | _
  · simp only [Bool.false_eq_true, if_false]
    exact find?_append_single_ne _ r (by simp [hne]) l
  · simp only [if_pos rfl]
    exact find?_map_replace_ne getId r k hne l

theorem find?_upsertAuto_some {ρ : Type} (getId : ρ → Int) (mk : Int → ρ)
    (hmk : ∀ k, getId (mk k) = k) (j k : Int) (l : List ρ) :
    (upsertAuto getId mk (some j) l).find? (fun x => decide (getId x = k)) =
      if j = k then some (mk j)
      else l.find? (fun x => decide (getId x = k)) := by
  unfold upsertAuto
  by_cases hjk : j = k
  · subst hjk
    rw [if_pos rfl]
    exact find?_upsertBy_self getId (mk j) j (hmk j) l
  · rw [if_neg hjk]
    exact find?_upsertBy_ne getId (mk j) k (by rw [hmk]; exact hjk) l

theorem find?_applyBatch {ρ : Type} (getId : ρ → Int) (mk : RawItem → Int → ρ)
    (hmk : ∀ it k, getId (mk it k) = k) (k : Int) :
    ∀ (items : List RawItem) (l : List ρ), (∀ it ∈ items, (it.id).isSome = true) →
      (applyBatch getId mk items l).find? (fun x => decide (getId x = k)) =
        (match lastKeyed k items with
         | some it => some (mk it k)
         | none => l.find? (fun x => decide (getId x = k)))
  | [], l, _ => by simp [applyBatch, lastKeyed]
  | it :: rest, l, hall => by
    rcases Option.isSome_iff_exists.mp (hall it (List.mem_cons_self ..)) with ⟨j, hj⟩
    have hrest : ∀ x ∈ rest, (x.id).isSome = true :=
      fun x hx => hall x (List.mem_cons_of_mem it hx)
    show (applyBatch getId mk rest (upsertAuto getId (mk it) it.id l)).find? _ = _
    rw [find?_applyBatch getId mk hmk k rest _ hrest]
    cases hlk : lastKeyed k rest with
    | some r2 => simp [lastKeyed, hlk]
    | none =>
      simp only [lastKeyed, hlk, hj, find?_upsertAuto_some getId (mk it) (hmk it) j k l]
      by_cases hjk : j = k
      · subst hjk
        simp
      · simp [hjk, fun h : some j = some k => hjk (Option.some.inj h)]

theorem ids_applyBatch_of_present {ρ : Type} (getId : ρ → Int) (mk : RawItem → Int → ρ)
    (hmk : ∀ it k, getId (mk it k) = k) :
    ∀ (items : List RawItem) (l : List ρ),
      (∀ it ∈ items, ∀ j, it.id = some j → j ∈ l.map getId) →
      (∀ it ∈ items, (it.id).isSome = true) →
      (applyBatch getId mk items l).map getId = l.map getId
  | [], _, _, _ => rfl
  | it :: rest, l, hpres, hall => by
    rcases Option.isSome_iff_exists.mp (hall it (List.mem_cons_self ..)) with ⟨j, hj⟩
    have hjl : j ∈ l.map getId := hpres it (List.mem_cons_self ..) j hj
    have hids : (upsertAuto getId (mk it) it.id l).map getId = l.map getId := by
      rw [hj]
      unfold upsertAuto
      rw [map_getId_upsertBy, hmk it j, if_pos hjl]
    show (applyBatch getId mk rest (upsertAuto getId (mk it) it.id l)).map getId = l.map getId
    rw [ids_applyBatch_of_present getId mk hmk rest _
        (fun x hx j2 hj2 => by
          rw [hids]
          exact hpres x (List.mem_cons_of_mem it hx) j2 hj2)
        (fun x hx => hall x (List.mem_cons_of_mem it hx)),
      hids]

theorem eq_of_ids_and_find? {ρ : Type} (getId : ρ → Int) :
    ∀ (l1 l2 : List ρ), l1.map getId = l2.map getId → (l1.map getId).Nodup →
      (∀ k, l1.find? (fun x => decide (getId x = k)) =
        l2.find? (fun x => decide (getId x = k))) →
      l1 = l2
  | [], l2, hm, _, _ => by
    cases l2 with
    | nil => rfl
    | cons y t2 => simp at hm
  | x :: t1, l2, hm, hnd, hf => by
    cases l2 with
    | nil => simp at hm
    | cons y t2 =>
      simp only [List.map_cons, List.cons.injEq] at hm
      obtain ⟨hxy, hmt⟩ := hm
      have h1 : (x :: t1).find? (fun z => decide (getId z = getId x)) = some x :=
        List.find?_cons_of_pos _ (by simp)
      have h2 : (y :: t2).find? (fun z => decide (getId z = getId x)) = some y :=
        List.find?_cons_of_pos _ (by simp [hxy])
      have hxy2 : x = y := by
        have h3 := hf (getId x)
        rw [h1, h2] at h3
        exact Option.some.inj h3
      subst hxy2
      simp only [List.map_cons, List.nodup_cons] at hnd
      have htl : t1 = t2 := by
        apply eq_of_ids_and_find? getId t1 t2 hmt hnd.2
        intro k
        by_cases hk : getId x = k
        · rw [find?_eq_none_id getId k t1 (hk ▸ hnd.1),
            find?_eq_none_id getId k t2 (by rw [← hmt]; exact hk ▸ hnd.1)]
        · have h3 := hf k
          rw [@List.find?_cons_of_neg ρ (fun z => decide (getId z = k)) x t1 (by simp [hk]),
            @List.find?_cons_of_neg ρ (fun z => decide (getId z = k)) x t2 (by simp [hk])] at h3
          exact h3
      rw [htl]

theorem applyBatch_idem {ρ : Type} (getId : ρ → Int) (mk : RawItem → Int → ρ)
    (hmk : ∀ it k, getId (mk it k) = k) (items : List RawItem) (l : List ρ)
    (hall : ∀ it ∈ items, (it.id).isSome = true)
    (hnd : (l.map getId).Nodup) :
    applyBatch getId mk items (applyBatch getId mk items l) = applyBatch getId mk items l := by
  have hnd1 : ((applyBatch getId mk items l).map getId).Nodup :=
    map_getId_applyBatch_nodup getId mk hmk items l hnd
  have hpres : ∀ it ∈ items, ∀ j, it.id = some j →
      j ∈ (applyBatch getId mk items l).map getId :=
    fun it hit j hj => mem_ids_applyBatch_self getId mk hmk items l it j hit hj
  apply eq_of_ids_and_find? getId
  · exact ids_applyBatch_of_present getId mk hmk items _ hpres hall
  · rw [ids_applyBatch_of_present getId mk hmk items _ hpres hall]
    exact hnd1
  · intro k
    rw [find?_applyBatch getId mk hmk k items _ hall,
      find?_applyBatch getId mk hmk k items l hall]
    cases lastKeyed k items <;> rfl

/-! ## Shape of a successful upsert transaction, per endpoint -/

theorem upsertDomainGo_users : ∀ (items : List RawItem) (st st' : DBState),
    upsertDomainGo "/users" items st = .ok st' →
    st' = { st with users := applyBatch UserRow.id mkUserRow items st.users }
  | [], st, st', h => by
    simp only [upsertDomainGo] at h
    cases h
    rfl
  | it :: rest, st, st', h => by
    simp only [upsertDomainGo, upsertDomainStep, if_pos rfl] at h
    have h2 := upsertDomainGo_users rest _ st' h
    rw [h2]
    rfl

theorem upsertDomainStep_posts (it : RawItem) (st : DBState) :
    upsertDomainStep "/posts" it st =
      (match it.userId with
       | none => .error "NOT NULL constraint failed: posts.user_id"
       | some u =>
         if st.users.any (fun r => decide (r.id = u)) then
           .ok { st with posts := upsertAuto PostRow.id (mkPostRow it u) it.id st.posts }
         else .error "FOREIGN KEY constraint failed") := by
  simp [upsertDomainStep]

theorem upsertDomainGo_posts : ∀ (items : List RawItem) (st st' : DBState),
    upsertDomainGo "/posts" items st = .ok st' →
    st' = { st with posts := applyBatch PostRow.id mkPostRowOk items st.posts }
  | [], st, st', h => by
    simp only [upsertDomainGo] at h
    cases h
    rfl
  | it :: rest, st, st', h => by
    have hgo : upsertDomainGo "/posts" (it :: rest) st =
        (match upsertDomainStep "/posts" it st with
         | .error e => .error e
         | .ok st1 => upsertDomainGo "/posts" rest st1) := rfl
    rcases hstep : upsertDomainStep "/posts" it st with e | st1
    · rw [hgo, hstep] at h
      simp at h
    · rw [hgo, hstep] at h
      have hrest : upsertDomainGo "/posts" rest st1 = .ok st' := h
      rw [upsertDomainStep_posts] at hstep
      rcases huid : it.userId with _ | u <;> rw [huid] at hstep
      · simp at hstep
      · have hstep2 : (if (st.users.any fun r => decide (r.id = u)) = true then
              (Except.ok { st with
                posts := upsertAuto PostRow.id (mkPostRow it u) it.id st.posts } :
                Except String DBState)
            else .error "FOREIGN KEY constraint failed") = .ok st1 := hstep
        by_cases hc : (st.users.any (fun r => decide (r.id = u))) = true
        · rw [if_pos hc] at hstep2
          have hst1 : st1 = { st with
              posts := upsertAuto PostRow.id (mkPostRow it u) it.id st.posts } :=
            (Except.ok.inj hstep2).symm
          subst hst1
          have hmkeq : mkPostRow it u = mkPostRowOk it := by
            funext k
            simp [mkPostRowOk, huid]
          rw [hmkeq] at hrest
          have h2 := upsertDomainGo_posts rest _ st' hrest
          rw [h2]
          rfl
        · rw [if_neg hc] at hstep2
          simp at hstep2

theorem upsertDomainStep_comments (it : RawItem) (st : DBState) :
    upsertDomainStep "/comments" it st =
      (match it.postId with
       | none => .error "NOT NULL constraint failed: comments.post_id"
       | some p =>
         if st.posts.any (fun r => decide (r.id = p)) then
           .ok { st with comments := upsertAuto CommentRow.id (mkCommentRow it p) it.id st.comments }
         else .error "FOREIGN KEY constraint failed") := by
  simp [upsertDomainStep]

theorem upsertDomainGo_comments : ∀ (items : List RawItem) (st st' : DBState),
    upsertDomainGo "/comments" items st = .ok st' →
    st' = { st with comments := applyBatch CommentRow.id mkCommentRowOk items st.comments }
  | [], st, st', h => by
    simp only [upsertDomainGo] at h
    cases h
    rfl
  | it :: rest, st, st', h => by
    have hgo : upsertDomainGo "/comments" (it :: rest) st =
        (match upsertDomainStep "/comments" it st with
         | .error e => .error e
         | .ok st1 => upsertDomainGo "/comments" rest st1) := rfl
    rcases hstep : upsertDomainStep "/comments" it st with e | st1
    · rw [hgo, hstep] at h
      simp at h
    · rw [hgo, hstep] at h
      have hrest : upsertDomainGo "/comments" rest st1 = .ok st' := h
      rw [upsertDomainStep_comments] at hstep
      rcases huid : it.postId with _ | p <;> rw [huid] at hstep
      · simp at hstep
      · have hstep2 : (if (st.posts.any fun r => decide (r.id = p)) = true then
              (Except.ok { st with
                comments := upsertAuto CommentRow.id (mkCommentRow it p) it.id st.comments } :
                Except String DBState)
            else .error "FOREIGN KEY constraint failed") = .ok st1 := hstep
        by_cases hc : (st.posts.any (fun r => decide (r.id = p))) = true
        · rw [if_pos hc] at hstep2
          have hst1 : st1 = { st with
              comments := upsertAuto CommentRow.id (mkCommentRow it p) it.id st.comments } :=
            (Except.ok.inj hstep2).symm
          subst hst1
          have hmkeq : mkCommentRow it p = mkCommentRowOk it := by
            funext k
            simp [mkCommentRowOk, huid]
          rw [hmkeq] at hrest
          have h2 := upsertDomainGo_comments rest _ st' hrest
          rw [h2]
          rfl
        · rw [if_neg hc] at hstep2
          simp at hstep2

theorem upsertDomainStep_albums (it : RawItem) (st : DBState) :
    upsertDomainStep "/albums" it st =
      (match it.userId with
       | none => .error "NOT NULL constraint failed: albums.user_id"
       | some u =>
         if st.users.any (fun r => decide (r.id = u)) then
           .ok { st with albums := upsertAuto AlbumRow.id (mkAlbumRow it u) it.id st.albums }
         else .error "FOREIGN KEY constraint failed") := by
  simp [upsertDomainStep]

theorem upsertDomainGo_albums : ∀ (items : List RawItem) (st st' : DBState),
    upsertDomainGo "/albums" items st = .ok st' →
    st' = { st with albums := applyBatch AlbumRow.id mkAlbumRowOk items st.albums }
  | [], st, st', h => by
    simp only [upsertDomainGo] at h
    cases h
    rfl
  | it :: rest, st, st', h => by
    have hgo : upsertDomainGo "/albums" (it :: rest) st =
        (match upsertDomainStep "/albums" it st with
         | .error e => .error e
         | .ok st1 => upsertDomainGo "/albums" rest st1) := rfl
    rcases hstep : upsertDomainStep "/albums" it st with e | st1
    · rw [hgo, hstep] at h
      simp at h
    · rw [hgo, hstep] at h
      have hrest : upsertDomainGo "/albums" rest st1 = .ok st' := h
      rw [upsertDomainStep_albums] at hstep
      rcases huid : it.userId with _ | u <;> rw [huid] at hstep
      · simp at hstep
      · have hstep2 : (if (st.users.any fun r => decide (r.id = u)) = true then
              (Except.ok { st with
                albums := upsertAuto AlbumRow.id (mkAlbumRow it u) it.id st.albums } :
                Except String DBState)
            else .error "FOREIGN KEY constraint failed") = .ok st1 := hstep
        by_cases hc : (st.users.any (fun r => decide (r.id = u))) = true
        · rw [if_pos hc] at hstep2
          have hst1 : st1 = { st with
              albums := upsertAuto AlbumRow.id (mkAlbumRow it u) it.id st.albums } :=
            (Except.ok.inj hstep2).symm
          subst hst1
          have hmkeq : mkAlbumRow it u = mkAlbumRowOk it := by
            funext k
            simp [mkAlbumRowOk, huid]
          rw [hmkeq] at hrest
          have h2 := upsertDomainGo_albums rest _ st' hrest
          rw [h2]
          rfl
        · rw [if_neg hc] at hstep2
          simp at hstep2

theorem upsertDomainStep_photos (it : RawItem) (st : DBState) :
    upsertDomainStep "/photos" it st =
      (match it.albumId with
       | none => .error "NOT NULL constraint failed: photos.album_id"
       | some a =>
         if st.albums.any (fun r => decide (r.id = a)) then
           .ok { st with photos := upsertAuto PhotoRow.id (mkPhotoRow it a) it.id st.photos }
         else .error "FOREIGN KEY constraint failed") := by
  simp [upsertDomainStep]

theorem upsertDomainGo_photos : ∀ (items : List RawItem) (st st' : DBState),
    upsertDomainGo "/photos" items st = .ok st' →
    st' = { st with photos := applyBatch PhotoRow.id mkPhotoRowOk items st.photos }
  | [], st, st', h => by
    simp only [upsertDomainGo] at h
    cases h
    rfl
  | it :: rest, st, st', h => by
    have hgo : upsertDomainGo "/photos" (it :: rest) st =
        (match upsertDomainStep "/photos" it st with
         | .error e => .error e
         | .ok st1 => upsertDomainGo "/photos" rest st1) := rfl
    rcases hstep : upsertDomainStep "/photos" it st with e | st1
    · rw [hgo, hstep] at h
      simp at h
    · rw [hgo, hstep] at h
      have hrest : upsertDomainGo "/photos" rest st1 = .ok st' := h
      rw [upsertDomainStep_photos] at hstep
      rcases huid : it.albumId with _ | a <;> rw [huid] at hstep
      · simp at hstep
      · have hstep2 : (if (st.albums.any fun r => decide (r.id = a)) = true then
              (Except.ok { st with
                photos := upsertAuto PhotoRow.id (mkPhotoRow it a) it.id st.photos } :
                Except String DBState)
            else .error "FOREIGN KEY constraint failed") = .ok st1 := hstep
        by_cases hc : (st.albums.any (fun r => decide (r.id = a))) = true
        · rw [if_pos hc] at hstep2
          have hst1 : st1 = { st with
              photos := upsertAuto PhotoRow.id (mkPhotoRow it a) it.id st.photos } :=
            (Except.ok.inj hstep2).symm
          subst hst1
          have hmkeq : mkPhotoRow it a = mkPhotoRowOk it := by
            funext k
            simp [mkPhotoRowOk, huid]
          rw [hmkeq] at hrest
          have h2 := upsertDomainGo_photos rest _ st' hrest
          rw [h2]
          rfl
        · rw [if_neg hc] at hstep2
          simp at hstep2

theorem upsertDomainStep_todos (it : RawItem) (st : DBState) :
    upsertDomainStep "/todos" it st =
      (match it.userId with
       | none => .error "NOT NULL constraint failed: todos.user_id"
       | some u =>
         if st.users.any (fun r => decide (r.id = u)) then
           .ok { st with todos := upsertAuto TodoRow.id (mkTodoRow it u) it.id st.todos }
         else .error "FOREIGN KEY constraint failed") := by
  simp [upsertDomainStep]

theorem upsertDomainGo_todos : ∀ (items : List RawItem) (st st' : DBState),
    upsertDomainGo "/todos" items st = .ok st' →
    st' = { st with todos := applyBatch TodoRow.id mkTodoRowOk items st.todos }
  | [], st, st', h => by
    simp only [upsertDomainGo] at h
    cases h
    rfl
  | it :: rest, st, st', h => by
    have hgo : upsertDomainGo "/todos" (it :: rest) st =
        (match upsertDomainStep "/todos" it st with
         | .error e => .error e
         | .ok st1 => upsertDomainGo "/todos" rest st1) := rfl
    rcases hstep : upsertDomainStep "/todos" it st with e | st1
    · rw [hgo, hstep] at h
      simp at h
    · rw [hgo, hstep] at h
      have hrest : upsertDomainGo "/todos" rest st1 = .ok st' := h
      rw [upsertDomainStep_todos] at hstep
      rcases huid : it.userId with _ | u <;> rw [huid] at hstep
      · simp at hstep
      · have hstep2 : (if (st.users.any fun r => decide (r.id = u)) = true then
              (Except.ok { st with
                todos := upsertAuto TodoRow.id (mkTodoRow it u) it.id st.todos } :
                Except String DBState)
            else .error "FOREIGN KEY constraint failed") = .ok st1 := hstep
        by_cases hc : (st.users.any (fun r => decide (r.id = u))) = true
        · rw [if_pos hc] at hstep2
          have hst1 : st1 = { st with
              todos := upsertAuto TodoRow.id (mkTodoRow it u) it.id st.todos } :=
            (Except.ok.inj hstep2).symm
          subst hst1
          have hmkeq : mkTodoRow it u = mkTodoRowOk it := by
            funext k
            simp [mkTodoRowOk, huid]
          rw [hmkeq] at hrest
          have h2 := upsertDomainGo_todos rest _ st' hrest
          rw [h2]
          rfl
        · rw [if_neg hc] at hstep2
          simp at hstep2

/-! ## Lemmas about the handler pipeline -/

theorem insertRows_length (ep : String) :
    ∀ (items : List RawItem) (acc : List ItemRow),
      (items.foldl (fun a it => a ++ [normalizeItem ep it (nextIdBy ItemRow.id a)]) acc).length =
        acc.length + items.length
  | [], acc => by simp
  | it :: rest, acc => by
    rw [List.foldl_cons, insertRows_length ep rest]
    simp only [List.length_append, List.length_cons, List.length_nil]
    omega

theorem insertApiItems_length (ep : String) (items : List RawItem) (st : DBState) :
    (insertApiItems ep items st).api_items.length = st.api_items.length + items.length :=
  insertRows_length ep items st.api_items

theorem fetchDataHandler_ok_inv (body : FetchBody) (payload : JsData) (st : DBState)
    (r : Response) (st' : DBState)
    (hval : body.endpoint ∈ validEndpoints)
    (h : fetchDataHandler body (.ok payload) st = (r, st'))
    (hs : r.status = 200) :
    ∃ stU, upsertDomainGo body.endpoint (toItemsArray (sortApiData body.endpoint payload))
        (insertApiItems body.endpoint (toItemsArray (sortApiData body.endpoint payload)) st) =
          .ok stU ∧
      st' = insertAudit body.endpoint (buildParams body) (sortApiData body.endpoint payload) stU := by
  simp only [fetchDataHandler, if_pos hval] at h
  rcases hup : upsertDomainGo body.endpoint (toItemsArray (sortApiData body.endpoint payload))
      (insertApiItems body.endpoint (toItemsArray (sortApiData body.endpoint payload)) st)
    with e | stU
  · rw [hup] at h
    simp only [Prod.mk.injEq] at h
    rw [← h.1] at hs
    simp at hs
  · rw [hup] at h
    simp only [Prod.mk.injEq] at h
    exact ⟨stU, rfl, h.2.symm⟩

theorem fetchDataHandler_err_inv (body : FetchBody) (payload : JsData) (st : DBState)
    (r : Response) (st' : DBState) (e : String)
    (hval : body.endpoint ∈ validEndpoints)
    (hup : upsertDomainGo body.endpoint (toItemsArray (sortApiData body.endpoint payload))
        (insertApiItems body.endpoint (toItemsArray (sortApiData body.endpoint payload)) st) =
          .error e)
    (h : fetchDataHandler body (.ok payload) st = (r, st')) :
    r = { status := 500 } ∧
      st' = insertApiItems body.endpoint (toItemsArray (sortApiData body.endpoint payload)) st := by
  simp only [fetchDataHandler, if_pos hval] at h
  rw [hup] at h
  simp only [Prod.mk.injEq] at h
  exact ⟨h.1.symm, h.2.symm⟩

/-- C2: when any statement of the domain-upsert transaction for a fetch
batch fails, the handler answers 500, every domain table is exactly as it
was before the request (the whole batch is rolled back as one unit), and
no audit row is written, because the audit insert runs only after the
domain upsert has committed. -/
theorem fetchData_upsert_atomic (body : FetchBody) (payload : JsData) (st : DBState)
    (r : Response) (st' : DBState) (e : String)
    (hval : body.endpoint ∈ validEndpoints)
    (hup : upsertDomainGo body.endpoint (toItemsArray (sortApiData body.endpoint payload))
        (insertApiItems body.endpoint (toItemsArray (sortApiData body.endpoint payload)) st) =
          .error e)
    (h : fetchDataHandler body (.ok payload) st = (r, st')) :
    r.status = 500 ∧ st'.users = st.users ∧ st'.posts = st.posts ∧
      st'.comments = st.comments ∧ st'.albums = st.albums ∧ st'.photos = st.photos ∧
      st'.todos = st.todos ∧ st'.api_responses = st.api_responses := by
  obtain ⟨hr, hst⟩ := fetchDataHandler_err_inv body payload st r st' e hval hup h
  subst hst
  rw [hr]
  exact ⟨rfl, rfl, rfl, rfl, rfl, rfl, rfl, rfl⟩

theorem fetchData_upsert_atomic_witness :
    (("/posts" : String) ∈ validEndpoints) ∧
    upsertDomainGo "/posts" (toItemsArray (sortApiData "/posts" (.obj { id := some 1 })))
        (insertApiItems "/posts" (toItemsArray (sortApiData "/posts" (.obj { id := some 1 }))) {}) =
      .error "NOT NULL constraint failed: posts.user_id" ∧
    ((fetchDataHandler { endpoint := "/posts" } (.ok (.obj { id := some 1 })) {}).1).status = 500 ∧
    ((fetchDataHandler { endpoint := "/posts" } (.ok (.obj { id := some 1 })) {}).2).api_responses =
      ({} : DBState).api_responses :=
  ⟨by decide, rfl,
    (fetchData_upsert_atomic { endpoint := "/posts" } (.obj { id := some 1 }) {} _ _
      "NOT NULL constraint failed: posts.user_id" (by decide) rfl rfl).1,
    (fetchData_upsert_atomic { endpoint := "/posts" } (.obj { id := some 1 }) {} _ _
      "NOT NULL constraint failed: posts.user_id" (by decide) rfl rfl).2.2.2.2.2.2.2⟩

/-- C9: the normalized-item insert transaction commits before the domain
upsert begins, so when the domain upsert fails the request answers 500
and writes no audit row, yet the api_items rows written for the fetch
remain stored (one appended row per batch item). -/
theorem fetchData_items_survive_failure (body : FetchBody) (payload : JsData) (st : DBState)
    (r : Response) (st' : DBState) (e : String)
    (hval : body.endpoint ∈ validEndpoints)
    (hup : upsertDomainGo body.endpoint (toItemsArray (sortApiData body.endpoint payload))
        (insertApiItems body.endpoint (toItemsArray (sortApiData body.endpoint payload)) st) =
          .error e)
    (h : fetchDataHandler body (.ok payload) st = (r, st')) :
    r.status = 500 ∧
      st'.api_items =
        (insertApiItems body.endpoint (toItemsArray (sortApiData body.endpoint payload))
          st).api_items ∧
      st'.api_items.length =
        st.api_items.length + (toItemsArray (sortApiData body.endpoint payload)).length ∧
      st'.api_responses = st.api_responses := by
  obtain ⟨hr, hst⟩ := fetchDataHandler_err_inv body payload st r st' e hval hup h
  subst hst
  rw [hr]
  exact ⟨rfl, rfl, insertApiItems_length _ _ _, rfl⟩

theorem fetchData_items_survive_failure_witness :
    (("/comments" : String) ∈ validEndpoints) ∧
    upsertDomainGo "/comments" (toItemsArray (sortApiData "/comments" (.obj { id := some 7 })))
        (insertApiItems "/comments" (toItemsArray (sortApiData "/comments" (.obj { id := some 7 }))) {}) =
      .error "NOT NULL constraint failed: comments.post_id" ∧
    ((fetchDataHandler { endpoint := "/comments" } (.ok (.obj { id := some 7 })) {}).2).api_items.length =
      ({} : DBState).api_items.length + 1 :=
  ⟨by decide, rfl,
    (fetchData_items_survive_failure { endpoint := "/comments" } (.obj { id := some 7 }) {} _ _
      "NOT NULL constraint failed: comments.post_id" (by decide) rfl rfl).2.2.1⟩

theorem sortApiData_arr_length (ep : String) (l : List RawItem) :
    (toItemsArray (sortApiData ep (.arr l))).length = l.length := by
  unfold sortApiData toItemsArray
  split_ifs <;> simp

theorem sortApiData_arr_mem (ep : String) (l : List RawItem) (it : RawItem) :
    it ∈ toItemsArray (sortApiData ep (.arr l)) ↔ it ∈ l := by
  unfold sortApiData toItemsArray
  split_ifs <;> simp

theorem insertAudit_api_items (ep : String) (p : FParams) (d : JsData) (st : DBState) :
    (insertAudit ep p d st).api_items = st.api_items := rfl

theorem insertAudit_resp_length (ep : String) (p : FParams) (d : JsData) (st : DBState) :
    (insertAudit ep p d st).api_responses.length = st.api_responses.length + 1 := by
  simp [insertAudit]

theorem insertApiItems_api_responses (ep : String) (items : List RawItem) (st : DBState) :
    (insertApiItems ep items st).api_responses = st.api_responses := rfl

/-- C1: running the fetch pipeline twice with the same endpoint selector
and an identical batch of externally-identified items, over a database
whose domain tables carry no duplicate ids, leaves the domain tables after
the second run identical to those after the first: the upsert overwrote
every row in place, exactly one row per external id, never a duplicate,
while each run appends one api_items row per item and one audit row. -/
theorem fetchData_twice_idempotent (body : FetchBody) (items : List RawItem)
    (st st1 st2 : DBState) (r1 r2 : Response)
    (hval : body.endpoint ∈ validEndpoints)
    (hids : ∀ it ∈ items, (it.id).isSome = true)
    (hnd : domainIdsNodup st)
    (h1 : fetchDataHandler body (.ok (.arr items)) st = (r1, st1)) (hs1 : r1.status = 200)
    (h2 : fetchDataHandler body (.ok (.arr items)) st1 = (r2, st2)) (hs2 : r2.status = 200) :
    (∀ it ∈ items, ∀ v, it.id = some v → domainIdCount body.endpoint v st2 = 1) ∧
    st2.users = st1.users ∧ st2.posts = st1.posts ∧ st2.comments = st1.comments ∧
    st2.albums = st1.albums ∧ st2.photos = st1.photos ∧ st2.todos = st1.todos ∧
    st2.api_items.length = st.api_items.length + 2 * items.length ∧
    st2.api_responses.length = st.api_responses.length + 2 := by
  obtain ⟨ep, bu, bp, ba⟩ := body
  obtain ⟨hndU, hndP, hndC, hndA, hndPh, hndT⟩ := hnd
  simp only [validEndpoints, List.mem_cons, List.not_mem_nil, or_false] at hval
  have hlen : (toItemsArray (sortApiData ep (.arr items))).length = items.length :=
    sortApiData_arr_length _ _
  have hall2 : ∀ it ∈ toItemsArray (sortApiData ep (.arr items)), (it.id).isSome = true :=
    fun it hit => hids it ((sortApiData_arr_mem _ _ _).mp hit)
  rcases hval with h | h | h | h | h | h
  · subst h
    have hv : ("/posts" : String) ∈ validEndpoints := by decide
    obtain ⟨stU1, hup1, hst1⟩ := fetchDataHandler_ok_inv _ _ _ _ _ hv h1 hs1
    subst hst1
    obtain ⟨stU2, hup2, hst2⟩ := fetchDataHandler_ok_inv _ _ _ _ _ hv h2 hs2
    subst hst2
    have hsh1 := upsertDomainGo_posts _ _ _ hup1
    subst hsh1
    have hsh2 := upsertDomainGo_posts _ _ _ hup2
    subst hsh2
    refine ⟨?_, rfl, ?_, rfl, rfl, rfl, rfl, ?_, ?_⟩
    · intro it hit v hv2
      have hmem := mem_ids_applyBatch_self PostRow.id mkPostRowOk (fun it k => rfl)
        (toItemsArray (sortApiData "/posts" (.arr items)))
        (applyBatch PostRow.id mkPostRowOk (toItemsArray (sortApiData "/posts" (.arr items)))
          st.posts) it v ((sortApiData_arr_mem _ _ _).mpr hit) hv2
      have hnodup2 := map_getId_applyBatch_nodup PostRow.id mkPostRowOk (fun it k => rfl)
        (toItemsArray (sortApiData "/posts" (.arr items))) _
        (map_getId_applyBatch_nodup PostRow.id mkPostRowOk (fun it k => rfl)
          (toItemsArray (sortApiData "/posts" (.arr items))) st.posts hndP)
      exact countP_eq_one_of_nodup_mem PostRow.id _ v hnodup2 hmem
    · exact applyBatch_idem PostRow.id mkPostRowOk (fun it k => rfl) _ _ hall2 hndP
    · simp only [insertAudit_api_items, insertApiItems_length, hlen]
      omega
    · simp only [insertAudit_resp_length, insertApiItems_api_responses]
  · subst h
    have hv : ("/users" : String) ∈ validEndpoints := by decide
    obtain ⟨stU1, hup1, hst1⟩ := fetchDataHandler_ok_inv _ _ _ _ _ hv h1 hs1
    subst hst1
    obtain ⟨stU2, hup2, hst2⟩ := fetchDataHandler_ok_inv _ _ _ _ _ hv h2 hs2
    subst hst2
    have hsh1 := upsertDomainGo_users _ _ _ hup1
    subst hsh1
    have hsh2 := upsertDomainGo_users _ _ _ hup2
    subst hsh2
    refine ⟨?_, ?_, rfl, rfl, rfl, rfl, rfl, ?_, ?_⟩
    · intro it hit v hv2
      have hmem := mem_ids_applyBatch_self UserRow.id mkUserRow (fun it k => rfl)
        (toItemsArray (sortApiData "/users" (.arr items)))
        (applyBatch UserRow.id mkUserRow (toItemsArray (sortApiData "/users" (.arr items)))
          st.users) it v ((sortApiData_arr_mem _ _ _).mpr hit) hv2
      have hnodup2 := map_getId_applyBatch_nodup UserRow.id mkUserRow (fun it k => rfl)
        (toItemsArray (sortApiData "/users" (.arr items))) _
        (map_getId_applyBatch_nodup UserRow.id mkUserRow (fun it k => rfl)
          (toItemsArray (sortApiData "/users" (.arr items))) st.users hndU)
      exact countP_eq_one_of_nodup_mem UserRow.id _ v hnodup2 hmem
    · exact applyBatch_idem UserRow.id mkUserRow (fun it k => rfl) _ _ hall2 hndU
    · simp only [insertAudit_api_items, insertApiItems_length, hlen]
      omega
    · simp only [insertAudit_resp_length, insertApiItems_api_responses]
  · subst h
    have hv : ("/albums" : String) ∈ validEndpoints := by decide
    obtain ⟨stU1, hup1, hst1⟩ := fetchDataHandler_ok_inv _ _ _ _ _ hv h1 hs1
    subst hst1
    obtain ⟨stU2, hup2, hst2⟩ := fetchDataHandler_ok_inv _ _ _ _ _ hv h2 hs2
    subst hst2
    have hsh1 := upsertDomainGo_albums _ _ _ hup1
    subst hsh1
    have hsh2 := upsertDomainGo_albums _ _ _ hup2
    subst hsh2
    refine ⟨?_, rfl, rfl, rfl, ?_, rfl, rfl, ?_, ?_⟩
    · intro it hit v hv2
      have hmem := mem_ids_applyBatch_self AlbumRow.id mkAlbumRowOk (fun it k => rfl)
        (toItemsArray (sortApiData "/albums" (.arr items)))
        (applyBatch AlbumRow.id mkAlbumRowOk (toItemsArray (sortApiData "/albums" (.arr items)))
          st.albums) it v ((sortApiData_arr_mem _ _ _).mpr hit) hv2
      have hnodup2 := map_getId_applyBatch_nodup AlbumRow.id mkAlbumRowOk (fun it k => rfl)
        (toItemsArray (sortApiData "/albums" (.arr items))) _
        (map_getId_applyBatch_nodup AlbumRow.id mkAlbumRowOk (fun it k => rfl)
          (toItemsArray (sortApiData "/albums" (.arr items))) st.albums hndA)
      exact countP_eq_one_of_nodup_mem AlbumRow.id _ v hnodup2 hmem
    · exact applyBatch_idem AlbumRow.id mkAlbumRowOk (fun it k => rfl) _ _ hall2 hndA
    · simp only [insertAudit_api_items, insertApiItems_length, hlen]
      omega
    · simp only [insertAudit_resp_length, insertApiItems_api_responses]
  · subst h
    have hv : ("/photos" : String) ∈ validEndpoints := by decide
    obtain ⟨stU1, hup1, hst1⟩ := fetchDataHandler_ok_inv _ _ _ _ _ hv h1 hs1
    subst hst1
    obtain ⟨stU2, hup2, hst2⟩ := fetchDataHandler_ok_inv _ _ _ _ _ hv h2 hs2
    subst hst2
    have hsh1 := upsertDomainGo_photos _ _ _ hup1
    subst hsh1
    have hsh2 := upsertDomainGo_photos _ _ _ hup2
    subst hsh2
    refine ⟨?_, rfl, rfl, rfl, rfl, ?_, rfl, ?_, ?_⟩
    · intro it hit v hv2
      have hmem := mem_ids_applyBatch_self PhotoRow.id mkPhotoRowOk (fun it k => rfl)
        (toItemsArray (sortApiData "/photos" (.arr items)))
        (applyBatch PhotoRow.id mkPhotoRowOk (toItemsArray (sortApiData "/photos" (.arr items)))
          st.photos) it v ((sortApiData_arr_mem _ _ _).mpr hit) hv2
      have hnodup2 := map_getId_applyBatch_nodup PhotoRow.id mkPhotoRowOk (fun it k => rfl)
        (toItemsArray (sortApiData "/photos" (.arr items))) _
        (map_getId_applyBatch_nodup PhotoRow.id mkPhotoRowOk (fun it k => rfl)
          (toItemsArray (sortApiData "/photos" (.arr items))) st.photos hndPh)
      exact countP_eq_one_of_nodup_mem PhotoRow.id _ v hnodup2 hmem
    · exact applyBatch_idem PhotoRow.id mkPhotoRowOk (fun it k => rfl) _ _ hall2 hndPh
    · simp only [insertAudit_api_items, insertApiItems_length, hlen]
      omega
    · simp only [insertAudit_resp_length, insertApiItems_api_responses]
  · subst h
    have hv : ("/todos" : String) ∈ validEndpoints := by decide
    obtain ⟨stU1, hup1, hst1⟩ := fetchDataHandler_ok_inv _ _ _ _ _ hv h1 hs1
    subst hst1
    obtain ⟨stU2, hup2, hst2⟩ := fetchDataHandler_ok_inv _ _ _ _ _ hv h2 hs2
    subst hst2
    have hsh1 := upsertDomainGo_todos _ _ _ hup1
    subst hsh1
    have hsh2 := upsertDomainGo_todos _ _ _ hup2
    subst hsh2
    refine ⟨?_, rfl, rfl, rfl, rfl, rfl, ?_, ?_, ?_⟩
    · intro it hit v hv2
      have hmem := mem_ids_applyBatch_self TodoRow.id mkTodoRowOk (fun it k => rfl)
        (toItemsArray (sortApiData "/todos" (.arr items)))
        (applyBatch TodoRow.id mkTodoRowOk (toItemsArray (sortApiData "/todos" (.arr items)))
          st.todos) it v ((sortApiData_arr_mem _ _ _).mpr hit) hv2
      have hnodup2 := map_getId_applyBatch_nodup TodoRow.id mkTodoRowOk (fun it k => rfl)
        (toItemsArray (sortApiData "/todos" (.arr items))) _
        (map_getId_applyBatch_nodup TodoRow.id mkTodoRowOk (fun it k => rfl)
          (toItemsArray (sortApiData "/todos" (.arr items))) st.todos hndT)
      exact countP_eq_one_of_nodup_mem TodoRow.id _ v hnodup2 hmem
    · exact applyBatch_idem TodoRow.id mkTodoRowOk (fun it k => rfl) _ _ hall2 hndT
    · simp only [insertAudit_api_items, insertApiItems_length, hlen]
      omega
    · simp only [insertAudit_resp_length, insertApiItems_api_responses]
  · subst h
    have hv : ("/comments" : String) ∈ validEndpoints := by decide
    obtain ⟨stU1, hup1, hst1⟩ := fetchDataHandler_ok_inv _ _ _ _ _ hv h1 hs1
    subst hst1
    obtain ⟨stU2, hup2, hst2⟩ := fetchDataHandler_ok_inv _ _ _ _ _ hv h2 hs2
    subst hst2
    have hsh1 := upsertDomainGo_comments _ _ _ hup1
    subst hsh1
    have hsh2 := upsertDomainGo_comments _ _ _ hup2
    subst hsh2
    refine ⟨?_, rfl, rfl, ?_, rfl, rfl, rfl, ?_, ?_⟩
    · intro it hit v hv2
      have hmem := mem_ids_applyBatch_self CommentRow.id mkCommentRowOk (fun it k => rfl)
        (toItemsArray (sortApiData "/comments" (.arr items)))
        (applyBatch CommentRow.id mkCommentRowOk (toItemsArray (sortApiData "/comments" (.arr items)))
          st.comments) it v ((sortApiData_arr_mem _ _ _).mpr hit) hv2
      have hnodup2 := map_getId_applyBatch_nodup CommentRow.id mkCommentRowOk (fun it k => rfl)
        (toItemsArray (sortApiData "/comments" (.arr items))) _
        (map_getId_applyBatch_nodup CommentRow.id mkCommentRowOk (fun it k => rfl)
          (toItemsArray (sortApiData "/comments" (.arr items))) st.comments hndC)
      exact countP_eq_one_of_nodup_mem CommentRow.id _ v hnodup2 hmem
    · exact applyBatch_idem CommentRow.id mkCommentRowOk (fun it k => rfl) _ _ hall2 hndC
    · simp only [insertAudit_api_items, insertApiItems_length, hlen]
      omega
    · simp only [insertAudit_resp_length, insertApiItems_api_responses]

theorem fetchData_twice_idempotent_witness :
    witnessBody.endpoint ∈ validEndpoints ∧
    (∀ it ∈ [witnessItem], (it.id).isSome = true) ∧
    domainIdsNodup {} ∧
    (w1.1).status = 200 ∧ (w2.1).status = 200 ∧
    domainIdCount "/users" 1 w2.2 = 1 ∧
    (w2.2).api_items.length = 2 ∧ (w2.2).api_responses.length = 2 := by
  have hvv : witnessBody.endpoint ∈ validEndpoints := by decide
  have hids : ∀ it ∈ [witnessItem], (it.id).isSome = true := by decide
  have hnd : domainIdsNodup ({} : DBState) := ⟨List.nodup_nil, List.nodup_nil,
    List.nodup_nil, List.nodup_nil, List.nodup_nil, List.nodup_nil⟩
  have hsort : sortApiData witnessBody.endpoint (JsData.arr [witnessItem]) =
      JsData.arr [witnessItem] := by
    simp [witnessBody, sortApiData]
  have hw1 : w1 = ({ status := 200, savedId := some 1, itemsInserted := some 1 },
      witnessState1) := by
    show fetchDataHandler witnessBody (.ok (.arr [witnessItem])) {} = _
    simp only [fetchDataHandler]
    rw [if_pos hvv, hsort]
    decide
  have hs1 : (w1.1).status = 200 := by rw [hw1]
  have hs2 : (w2.1).status = 200 := by
    have h2e : w2 = fetchDataHandler witnessBody (.ok (.arr [witnessItem])) witnessState1 := by
      show fetchDataHandler witnessBody (.ok (.arr [witnessItem])) w1.2 = _
      rw [congrArg Prod.snd hw1]
    rw [h2e]
    simp only [fetchDataHandler]
    rw [if_pos hvv, hsort]
    decide
  have main := fetchData_twice_idempotent witnessBody [witnessItem] {} w1.2 w2.2 w1.1 w2.1
    hvv hids hnd rfl hs1 rfl hs2
  exact ⟨hvv, hids, hnd, hs1, hs2,
    main.1 witnessItem (List.mem_cons_self ..) 1 rfl,
    main.2.2.2.2.2.2.2.1, main.2.2.2.2.2.2.2.2⟩

/-! ## Lemmas for the items query endpoint -/

theorem itemsLe_trans (a b c : ItemRow) (h1 : itemsLe a b = true) (h2 : itemsLe b c = true) :
    itemsLe a c = true := by
  simp only [itemsLe, decide_eq_true_eq] at h1 h2 ⊢
  exact le_trans h1 h2

theorem itemsLe_total (a b : ItemRow) : itemsLe a b = true ∨ itemsLe b a = true := by
  simp only [itemsLe, decide_eq_true_eq]
  exact le_total _ _

theorem itemsLe_trans_coe : ∀ (a b c : ItemRow), itemsLe a b → itemsLe b c → itemsLe a c :=
  itemsLe_trans

theorem itemsLe_total_coe : ∀ (a b : ItemRow), itemsLe a b || itemsLe b a := by
  intro a b
  rcases itemsLe_total a b with h | h <;> simp [h]

theorem applyLimit_sublist (lim : Option Int) (l : List ItemRow) :
    List.Sublist (applyLimit lim l) l := by
  cases lim with
  | none => exact List.Sublist.refl l
  | some n =>
    simp only [applyLimit]
    split_ifs
    · exact List.Sublist.refl l
    · exact List.take_sublist _ l

theorem applyOffset_sublist (off : Option Int) (l : List ItemRow) :
    List.Sublist (applyOffset off l) l := by
  cases off with
  | none => exact List.Sublist.refl l
  | some n => exact List.drop_sublist _ l

theorem itemsHandler_sublist (q : ItemsQuery) (st : DBState) :
    List.Sublist (itemsHandler q st) ((st.api_items.filter (rowMatches q)).mergeSort itemsLe) :=
  (applyLimit_sublist _ _).trans (applyOffset_sublist _ _)

/-- C7: GET /api/items returns rows drawn from api_items that pass every
requested filter, ordered by endpoint, then user id, post id, album id and
item id ascending with SQL NULL sorting first, and under the default
pagination (limit 100, offset 0) it returns exactly the first hundred of
the ordered matching rows. -/
theorem itemsHandler_spec (q : ItemsQuery) (st : DBState) :
    List.Pairwise (fun a b => itemsLe a b = true) (itemsHandler q st) ∧
    (∀ r ∈ itemsHandler q st, r ∈ st.api_items ∧ rowMatches q r = true) ∧
    (q.limit = none → q.offset = none →
      itemsHandler q st =
        ((st.api_items.filter (rowMatches q)).mergeSort itemsLe).take 100) := by
  refine ⟨?_, ?_, ?_⟩
  · exact (List.sorted_mergeSort itemsLe_trans_coe itemsLe_total_coe
      (st.api_items.filter (rowMatches q))).sublist (itemsHandler_sublist q st)
  · intro r hr
    have hr2 : r ∈ (st.api_items.filter (rowMatches q)).mergeSort itemsLe :=
      (itemsHandler_sublist q st).subset hr
    have hr3 : r ∈ st.api_items.filter (rowMatches q) := List.mem_mergeSort.mp hr2
    exact ⟨List.mem_of_mem_filter hr3, List.of_mem_filter hr3⟩
  · intro hl ho
    simp [itemsHandler, effLimit, effOffset, hl, ho, applyLimit, applyOffset]

theorem itemsHandler_spec_witness :
    itemsHandler {} singleItemState = [witnessItemRow1] :=
  ((itemsHandler_spec {} singleItemState).2.2 rfl rfl).trans
    (by
      rw [show singleItemState.api_items.filter (rowMatches {}) = [witnessItemRow1] from by decide]
      simp)

/-- C10 counterexample: with one stored row owned by user 0 and one owned
by user 5, the query `userId=0` (the string `"0"`, which is truthy) does
not return the same rows as omitting the filter — the filter is applied. -/
theorem itemsHandler_userIdZero_not_ignored :
    itemsHandler { userId := some "0" } zeroFilterState ≠ itemsHandler {} zeroFilterState := by
  have hf1 : zeroFilterState.api_items.filter (rowMatches { userId := some "0" }) =
      [rowUserZero] := by decide
  have hf2 : zeroFilterState.api_items.filter (rowMatches {}) =
      [rowUserZero, rowUserFive] := by decide
  have hl1 : (itemsHandler { userId := some "0" } zeroFilterState).length = 1 := by
    simp [itemsHandler, effLimit, effOffset, applyLimit, applyOffset, hf1]
  have hl2 : (itemsHandler {} zeroFilterState).length = 2 := by
    simp [itemsHandler, effLimit, effOffset, applyLimit, applyOffset, hf2]
  intro h
  rw [h, hl2] at hl1
  exact absurd hl1 (by decide)

/-- C10 amended: in GET /api/items (and the browse endpoints) a filter
whose query value is absent or the empty string is ignored, but the
string `"0"` is truthy, so `userId=0` is applied as a real equality
filter: every returned row then has user id `0`. -/
theorem itemsHandler_falsy_filters (st : DBState) (q : ItemsQuery) :
    itemsHandler { q with userId := some "" } st = itemsHandler { q with userId := none } st ∧
    itemsHandler { q with postId := some "" } st = itemsHandler { q with postId := none } st ∧
    itemsHandler { q with albumId := some "" } st = itemsHandler { q with albumId := none } st ∧
    itemsHandler { q with endpoint := some "" } st = itemsHandler { q with endpoint := none } st ∧
    postsHandler (some "") st = postsHandler none st ∧
    (∀ r ∈ itemsHandler { q with userId := some "0" } st, r.user_id = some 0) := by
  have hjn : jsNumber "0" = some 0 := by decide
  refine ⟨?_, ?_, ?_, ?_, ?_, ?_⟩
  · have hrm : rowMatches { q with userId := some "" } = rowMatches { q with userId := none } := by
      funext r
      simp [rowMatches, jsTruthy]
    simp only [itemsHandler, hrm]
    rfl
  · have hrm : rowMatches { q with postId := some "" } = rowMatches { q with postId := none } := by
      funext r
      simp [rowMatches, jsTruthy]
    simp only [itemsHandler, hrm]
    rfl
  · have hrm : rowMatches { q with albumId := some "" } =
        rowMatches { q with albumId := none } := by
      funext r
      simp [rowMatches, jsTruthy]
    simp only [itemsHandler, hrm]
    rfl
  · have hrm : rowMatches { q with endpoint := some "" } =
        rowMatches { q with endpoint := none } := by
      funext r
      simp [rowMatches, jsTruthy]
    simp only [itemsHandler, hrm]
    rfl
  · rfl
  · intro r hr
    have hr2 : r ∈ st.api_items.filter (rowMatches { q with userId := some "0" }) :=
      List.mem_mergeSort.mp ((itemsHandler_sublist _ st).subset hr)
    have hm := List.of_mem_filter hr2
    simp only [rowMatches, jsTruthy, hjn, Bool.and_eq_true] at hm
    simpa [hjn] using hm.1.1.1.2

theorem itemsHandler_falsy_filters_witness :
    itemsHandler { userId := some "" } zeroFilterState = itemsHandler {} zeroFilterState ∧
    rowUserZero ∈ itemsHandler { userId := some "0" } zeroFilterState ∧
    rowUserZero.user_id = some 0 := by
  have hmem : rowUserZero ∈ itemsHandler { userId := some "0" } zeroFilterState := by
    have hf1 : zeroFilterState.api_items.filter (rowMatches { userId := some "0" }) =
        [rowUserZero] := by decide
    simp [itemsHandler, effLimit, effOffset, applyLimit, applyOffset, hf1]
  refine ⟨?_, hmem, ?_⟩
  · exact (itemsHandler_falsy_filters zeroFilterState {}).1
  · exact (itemsHandler_falsy_filters zeroFilterState {}).2.2.2.2.2 rowUserZero hmem
